import Mathlib

/-!
Key resolution and token decoding of `openid-decode-token`.

A shallow embedding of the two packages of the repository:

* `pkg/cert` (`cert.go`, `manager.go`): the `Cert` record, `NewCertManager`,
  `certManager.PublicKey` and `certManager.Cert`;
* `pkg/decoder` (`jwt_decoder.go`): `NewJwtDecoder`, `jwtDecoder.publicKey` and
  `jwtDecoder.DecodeAccessTokenClaims`.

Go strings are Lean strings, Go byte slices are lists of naturals below 256, the
unbounded `big.Int` is `Int`, and `uint64`/`int` conversions are written with their
wrap-around.  A Go result pair `(value, error)` is kept as a pair of options where the
source can observe both halves, and a run-time panic is an outcome of its own.
Functions of the Go standard library and of `github.com/dgrijalva/jwt-go` that the
source calls are modelled next to their callers; the capabilities the source receives
(the HTTP client, a `cert.Manager`) are state machines over an arbitrary state.
-/

namespace OpenIDDecode

/-! ## Error values -/

/-- Go `error` values met by the program, told apart by where they are created. -/
inductive GoError where
  /-- An error created outside this repository's functions and handed to them: by the
  HTTP client, by the JSON decoder, by a `cert.Manager` implementation, by the JWT
  library's segment decoding, claim validation or signature verification. -/
  | external (msg : String)
  /-- The value of `errors.New(msg)` executed by this repository. -/
  | errorsNew (msg : String)
  /-- The value of `fmt.Errorf(...)` executed by this repository, with its formatted text. -/
  | fmtErrorf (msg : String)
  /-- The value `base64.CorruptInputError(offset)`. -/
  | corruptInput (offset : Nat)
  /-- The value `io.EOF`. -/
  | eof
  /-- The value `io.ErrUnexpectedEOF`. -/
  | unexpectedEOF
  deriving DecidableEq, Repr

/-- The method `Error()` of an error value. -/
def GoError.Error : GoError → String
  | .external msg => msg
  | .errorsNew msg => msg
  | .fmtErrorf msg => msg
  | .corruptInput offset => "illegal base64 data at input byte " ++ toString offset
  | .eof => "EOF"
  | .unexpectedEOF => "unexpected EOF"

/-- What a call of a Go function of result type `(T, error)` can do, as far as a caller
that tests `err != nil` first can tell. -/
inductive Outcome (α : Type) where
  /-- The call returned a value and a nil error. -/
  | ok (val : α)
  /-- The call returned a non-nil error. -/
  | error (err : GoError)
  /-- The call did not return: a run-time panic unwound out of it. -/
  | panic (msg : String)
  deriving DecidableEq, Repr

deriving instance DecidableEq for Except

/-! ## `encoding/base64`: `RawURLEncoding` -/

/-- The URL-safe alphabet, Go's `encodeURL`. -/
def encodeURL : List Char :=
  "ABCDEFGHIJKLMNOPQRSTUVWXYZabcdefghijklmnopqrstuvwxyz0123456789-_".toList

/-- The table lookup `enc.encode[v]`. -/
def encodeChar (v : Nat) : Char := encodeURL.getD v 'A'

/-- The table lookup `enc.decodeMap[c]`; `none` stands for the entry `0xff`. -/
def decodeMap (c : Char) : Option Nat :=
  let i := encodeURL.indexOf c
  if i < 64 then some i else none

/-- The output characters of `Encoding.Encode` without padding: every three bytes give four
characters, a rest of two bytes gives three and a rest of one byte gives two. -/
def encode : List Nat → List Char
  | b0 :: b1 :: b2 :: rest =>
      let val := b0 * 65536 + b1 * 256 + b2
      encodeChar (val / 262144 % 64) :: encodeChar (val / 4096 % 64) ::
        encodeChar (val / 64 % 64) :: encodeChar (val % 64) :: encode rest
  | [b0, b1] =>
      let val := b0 * 65536 + b1 * 256
      [encodeChar (val / 262144 % 64), encodeChar (val / 4096 % 64), encodeChar (val / 64 % 64)]
  | [b0] =>
      let val := b0 * 65536
      [encodeChar (val / 262144 % 64), encodeChar (val / 4096 % 64)]
  | [] => []

/-- The bytes one quantum of `dbuf.length` six-bit values stands for (`decodeQuantum`, the
part after its reading loop): the values are packed into 24 bits and the first
`dbuf.length - 1` bytes are kept.  The encoding is not strict, so unused low bits are dropped
unchecked. -/
def quantumBytes (dbuf : List Nat) : List Nat :=
  let val := dbuf.getD 0 0 * 262144 + dbuf.getD 1 0 * 4096 + dbuf.getD 2 0 * 64 + dbuf.getD 3 0
  [val / 65536 % 256, val / 256 % 256, val % 256].take (dbuf.length - 1)

/-- The loop of `Encoding.Decode` over `decodeQuantum` for an encoding without padding.
`si` is the byte offset of the next input character, `dbuf` the six-bit values read so far in
the current quantum and `out` the bytes decoded so far.  Carriage returns and line feeds are
skipped, any other character outside the alphabet is a `CorruptInputError` at its offset, and
an input that ends one character into a quantum is a `CorruptInputError` too. -/
def decodeLoop : List Char → Nat → List Nat → List Nat → Except GoError (List Nat)
  | [], si, dbuf, out =>
      if dbuf.length = 1 then .error (.corruptInput (si - 1))
      else .ok (out ++ quantumBytes dbuf)
  | c :: cs, si, dbuf, out =>
      match decodeMap c with
      | some v =>
          if dbuf.length = 3 then
            decodeLoop cs (si + c.utf8Size) [] (out ++ quantumBytes (dbuf ++ [v]))
          else decodeLoop cs (si + c.utf8Size) (dbuf ++ [v]) out
      | none =>
          if c = '\n' ∨ c = '\r' then decodeLoop cs (si + c.utf8Size) dbuf out
          else .error (.corruptInput si)

/-- The call `base64.RawURLEncoding.EncodeToString(src)`. -/
def EncodeToString (src : List Nat) : String := String.mk (encode src)

/-- The call `base64.RawURLEncoding.DecodeString(s)`. -/
def DecodeString (s : String) : Except GoError (List Nat) := decodeLoop s.data 0 [] []

/-- The texts `base64.RawURLEncoding.DecodeString` accepts, described on the text itself:
every character is in the URL-safe alphabet or is a carriage return or line feed (which the
decoder skips), and the number of alphabet characters does not leave a rest of one after
groups of four.  This is the leniency of the Go decoder, not the validity the specification
speaks of, which is `validRawURL`. -/
def acceptedRawURL (s : String) : Bool :=
  s.data.all (fun c => encodeURL.contains c || c == '\n' || c == '\r') &&
    (s.data.filter (fun c => encodeURL.contains c)).length % 4 != 1

/-- A valid unpadded base64url string, in the words of the specification: every character is
in the URL-safe alphabet (no padding, no line break, nothing else) and the length does not
leave a rest of one after groups of four. -/
def validRawURL (s : String) : Bool :=
  s.data.all (fun c => encodeURL.contains c) && s.data.length % 4 != 1

/-- The text `s` without its carriage returns and line feeds. -/
def dropNewlines (s : String) : String :=
  String.mk (s.data.filter (fun c => c != '\n' && c != '\r'))

/-! ## `math/big` and `encoding/binary` -/

/-- The value of a big-endian byte sequence: `big.Int.SetBytes`, and `BigEndian.Uint64` on
eight bytes. -/
def SetBytes (buf : List Nat) : Nat := buf.foldl (fun acc b => acc * 256 + b) 0

/-- The digits of `n` in base 256, most significant first, put in front of `acc`; `fuel`
bounds the number of digits. -/
def bytesAux : Nat → Nat → List Nat → List Nat
  | 0, _, acc => acc
  | fuel + 1, n, acc => if n = 0 then acc else bytesAux fuel (n / 256) (n % 256 :: acc)

/-- The method `big.Int.Bytes` on a non-negative value: the big-endian bytes without
leading zeros, none at all for zero. -/
def Bytes (n : Nat) : List Nat := bytesAux n n []

/-- The conversion `uint64(e)` of a Go `int`. -/
def uint64OfInt (e : Int) : Nat := (e % 18446744073709551616).toNat

/-- The conversion `int(u)` of a `uint64` on a 64-bit platform. -/
def intOfUint64 (u : Nat) : Int :=
  if u % 18446744073709551616 < 9223372036854775808 then ((u % 18446744073709551616 : Nat) : Int)
  else ((u % 18446744073709551616 : Nat) : Int) - 18446744073709551616

/-- The eight bytes `binary.Write(buf, binary.BigEndian, u)` appends for a `uint64`. -/
def binaryWriteUint64 (u : Nat) : List Nat :=
  [u / 72057594037927936 % 256, u / 281474976710656 % 256, u / 1099511627776 % 256,
    u / 4294967296 % 256, u / 16777216 % 256, u / 65536 % 256, u / 256 % 256, u % 256]

/-- The call `binary.Read(bytes.NewReader(r), binary.BigEndian, &eInt)` for a `uint64`: it
reads exactly eight bytes, failing with `io.EOF` on an empty reader and with
`io.ErrUnexpectedEOF` on a shorter one, and leaves the bytes after the eighth unread. -/
def binaryReadUint64 (r : List Nat) : Except GoError Nat :=
  if r.length = 0 then .error .eof
  else if r.length < 8 then .error .unexpectedEOF
  else .ok (SetBytes (r.take 8))

/-! ## Package `cert` -/

/-- The struct `Cert` of `cert.go`: one entry of a JWKS document. -/
structure Cert where
  Kty : String
  Use : String
  Kid : String
  X5t : String
  N : String
  E : String
  X5c : List String
  deriving DecidableEq, Repr

/-- The struct `rsa.PublicKey`. -/
structure RSAPublicKey where
  N : Int
  E : Int
  deriving DecidableEq, Repr

/-- What the source sets of an `http.Request`. -/
structure Request where
  Method : String
  URL : String
  deriving DecidableEq, Repr

/-- What the source reads of an `http.Response`: the status code and the content of the
body. -/
structure Response where
  StatusCode : Int
  Body : String
  deriving DecidableEq, Repr

/-- The interface `HttpClient` of `cert.go` over a client state `σ`: `Do` receives the
request pointer and returns the pair `(*http.Response, error)`, the error given by its
message. -/
structure HttpClient (σ : Type) where
  Do : Option Request → σ → (Option Response × Option String) × σ

/-- The standard-library calls of `certManager.Cert` whose results depend on text formats
that are not modelled: `http.NewRequest` (nil when the URL does not parse; the source drops
its error) and the two `json.NewDecoder(body).Decode` calls, into `ConfigRealm` (giving
`jr.URLKeys`) and into `kResp` (giving `kr.Keys`). -/
structure Platform where
  NewRequest : String → String → Option Request
  decodeConfigRealm : String → Except String String
  decodeKResp : String → Except String (List Cert)

/-- The struct `certManager`. -/
structure certManager (σ : Type) where
  basePath : String
  httpClient : HttpClient σ

/-- The constant `urlSeparator`. -/
def urlSeparator : String := "/"

/-- The call `strings.TrimRight(s, cutset)`: `s` without its trailing characters that occur
in `cutset`. -/
def TrimRight (s cutset : String) : String :=
  String.mk (s.data.reverse.dropWhile (fun c => cutset.data.contains c)).reverse

/-- The constructor `NewCertManager`. -/
def NewCertManager {σ : Type} (basePath : String) (httpClient : HttpClient σ) : certManager σ :=
  { basePath := TrimRight basePath urlSeparator, httpClient := httpClient }

/-- The method `certManager.PublicKey`. -/
def certManager.PublicKey {σ : Type} (_cm : certManager σ) (cert : Cert) :
    Except GoError RSAPublicKey :=
  match DecodeString cert.N with
  | .error err => .error err
  | .ok decN =>
    let nInt := SetBytes decN
    match DecodeString cert.E with
    | .error err => .error err
    | .ok decE =>
      let eBytes :=
        if decE.length < 8 then List.replicate (8 - decE.length) 0 ++ decE else decE
      match binaryReadUint64 eBytes with
      | .error err => .error err
      | .ok eInt => .ok { N := (nInt : Int), E := intOfUint64 eInt }

/-- The text `fmt.Sprintf(configurationURLPattern, basePath, realm)`. -/
def configurationURL (basePath realm : String) : String :=
  basePath ++ "/" ++ realm ++ "/.well-known/openid-configuration"

/-- The text of `fmt.Errorf("error get configuration. Response code: %d. Url: %s", ...)`. -/
def configurationErrorText (code : Int) (url : String) : String :=
  "error get configuration. Response code: " ++ toString code ++ ". Url: " ++ url

/-- The text of `fmt.Errorf("error get keys. Response code: %d. Url: %s", ...)`. -/
def keysErrorText (code : Int) (url : String) : String :=
  "error get keys. Response code: " ++ toString code ++ ". Url: " ++ url

/-- The loop `for _, k := range kr.Keys { if k.Kid == kid { cert = k; break } }` started
with `cert`. -/
def selectKey (kid : String) : List Cert → Cert → Cert
  | [], cert => cert
  | k :: ks, cert => if k.Kid = kid then k else selectKey kid ks cert

/-- The zero value `Cert{}`. -/
def emptyCert : Cert :=
  { Kty := "", Use := "", Kid := "", X5t := "", N := "", E := "", X5c := [] }

/-- What a run of `certManager.Cert` does to its surroundings, in order. -/
inductive HttpEvent where
  /-- The call `cm.httpClient.Do(req)`. -/
  | request (req : Option Request)
  /-- The deferred call `Body.Close()` on a response. -/
  | closeBody (resp : Response)
  deriving DecidableEq, Repr

/-- A run of `certManager.Cert`: its outcome, the client state it leaves and its events. -/
structure CertRun (σ : Type) where
  out : Outcome Cert
  client : σ
  events : List HttpEvent

/-- The panic of reading a field through a nil pointer. -/
def nilDereference : String :=
  "runtime error: invalid memory address or nil pointer dereference"

/-- The method `certManager.Cert`, run from the client state `s`.  The deferred closes run
when the function returns, the one registered last first. -/
def certManager.Cert {σ : Type} (env : Platform) (cm : certManager σ) (kid realm : String)
    (s : σ) : CertRun σ :=
  let urlConfiguration := configurationURL cm.basePath realm
  let reqConf := env.NewRequest "GET" urlConfiguration
  match cm.httpClient.Do reqConf s with
  | ((_, some err), s1) => ⟨.error (.external err), s1, [.request reqConf]⟩
  | ((none, none), s1) => ⟨.panic nilDereference, s1, [.request reqConf]⟩
  | ((some resp, none), s1) =>
    if resp.StatusCode < 200 ∨ resp.StatusCode > 299 then
      ⟨.error (.fmtErrorf (configurationErrorText resp.StatusCode urlConfiguration)), s1,
        [.request reqConf]⟩
    else
      match env.decodeConfigRealm resp.Body with
      | .error err => ⟨.error (.external err), s1, [.request reqConf, .closeBody resp]⟩
      | .ok urlKeys =>
        let reqCerts := env.NewRequest "GET" urlKeys
        match cm.httpClient.Do reqCerts s1 with
        | ((_, some err), s2) =>
          ⟨.error (.external err), s2, [.request reqConf, .request reqCerts, .closeBody resp]⟩
        | ((none, none), s2) =>
          ⟨.panic nilDereference, s2, [.request reqConf, .request reqCerts, .closeBody resp]⟩
        | ((some respKeys, none), s2) =>
          if respKeys.StatusCode < 200 ∨ respKeys.StatusCode > 299 then
            ⟨.error (.fmtErrorf (keysErrorText respKeys.StatusCode urlKeys)), s2,
              [.request reqConf, .request reqCerts, .closeBody resp]⟩
          else
            match env.decodeKResp respKeys.Body with
            | .error err =>
              ⟨.error (.external err), s2,
                [.request reqConf, .request reqCerts, .closeBody respKeys, .closeBody resp]⟩
            | .ok keys =>
              let cert := selectKey kid keys emptyCert
              if cert.E.length = 0 then
                ⟨.error (.errorsNew "no has key"), s2,
                  [.request reqConf, .request reqCerts, .closeBody respKeys, .closeBody resp]⟩
              else
                ⟨.ok cert, s2,
                  [.request reqConf, .request reqCerts, .closeBody respKeys, .closeBody resp]⟩

/-! ## Package `decoder` -/

/-- The interface `cert.Manager` over an implementation state `μ`.  Each method returns its
Go result pair and the next state; a nil `*Cert` or nil `*rsa.PublicKey` is `none`. -/
structure Manager (μ : Type) where
  Cert : String → String → μ → (Option OpenIDDecode.Cert × Option GoError) × μ
  PublicKey : Option OpenIDDecode.Cert → μ → (Option RSAPublicKey × Option GoError) × μ

/-- The Go map `map[string]*cert.Cert`: `none` for an absent key, `some p` for a key that
holds the pointer `p`. -/
abbrev CertsCache := String → Option (Option Cert)

/-- The index expression `m[key]`: nil for an absent key. -/
def CertsCache.get (m : CertsCache) (key : String) : Option Cert := (m key).join

/-- The assignment `m[key] = c`. -/
def CertsCache.set (m : CertsCache) (key : String) (c : Option Cert) : CertsCache :=
  fun k => if k = key then some c else m k

/-- The struct `jwtDecoder`. -/
structure jwtDecoder (μ : Type) where
  basePath : String
  certsCache : CertsCache
  certManager : Manager μ

/-- The constructor `NewJwtDecoder`: an empty cache, and `basePath` left at its zero value. -/
def NewJwtDecoder {μ : Type} (certManager : Manager μ) : jwtDecoder μ :=
  { basePath := "", certsCache := fun _ => none, certManager := certManager }

/-- A call of a method of the decoder's `cert.Manager`. -/
inductive ManagerCall where
  | Cert (kid realm : String)
  | PublicKey (cert : Option Cert)
  deriving DecidableEq, Repr

/-- A run of `jwtDecoder.publicKey`: the result pair, the decoder and the manager state it
leaves, and the manager calls it made, in order. -/
structure KeyRun (μ : Type) where
  key : Option RSAPublicKey
  err : Option GoError
  decoder : jwtDecoder μ
  manager : μ
  calls : List ManagerCall

/-- The method `jwtDecoder.publicKey`, run with the manager in state `m`. -/
def jwtDecoder.publicKey {μ : Type} (j : jwtDecoder μ) (kid realm : String) (m : μ) : KeyRun μ :=
  match j.certsCache.get kid with
  | none =>
    match j.certManager.Cert kid realm m with
    | ((_, some err), m1) => ⟨none, some err, j, m1, [.Cert kid realm]⟩
    | ((c, none), m1) =>
      let j1 := { j with certsCache := j.certsCache.set kid c }
      match j.certManager.PublicKey c m1 with
      | ((key, err), m2) => ⟨key, err, j1, m2, [.Cert kid realm, .PublicKey c]⟩
  | some c =>
    match j.certManager.PublicKey (some c) m with
    | ((key, err), m1) => ⟨key, err, j, m1, [.PublicKey (some c)]⟩

/-- The decoder and manager state after the resolutions `ops`, each a pair `(kid, realm)`,
made one after the other. -/
def resolveAll {μ : Type} : List (String × String) → jwtDecoder μ → μ → jwtDecoder μ × μ
  | [], j, m => (j, m)
  | (kid, realm) :: ops, j, m =>
      resolveAll ops (j.publicKey kid realm m).decoder (j.publicKey kid realm m).manager

/-! ### `github.com/dgrijalva/jwt-go` -/

/-- A value of a decoded header, `interface{}`: nil (an absent key or JSON null), a string,
or a value of another dynamic type, kept as the name of that type and its `%v` text. -/
inductive Value where
  | nil
  | string (s : String)
  | other (goType : String) (text : String)
  deriving DecidableEq, Repr

/-- The text `fmt.Sprintf("%v", v)`. -/
def Value.format : Value → String
  | .nil => "<nil>"
  | .string s => s
  | .other _ text => text

/-- The map `token.Header`, as its entries. -/
abbrev Header := List (String × Value)

/-- The index expression `header[key]`. -/
def Header.get (h : Header) (key : String) : Value :=
  match h.find? (fun kv => kv.1 = key) with
  | some kv => kv.2
  | none => .nil

/-- The dynamic type of a registered `jwt.SigningMethod`, with the name it is registered
under. -/
inductive SigningMethod where
  /-- The type `*jwt.SigningMethodRSA`. -/
  | RSA (name : String)
  /-- The type `*jwt.SigningMethodRSAPSS`, which embeds a `*SigningMethodRSA` and is another type. -/
  | RSAPSS (name : String)
  /-- The type `*jwt.SigningMethodHMAC`. -/
  | HMAC (name : String)
  /-- The type `*jwt.SigningMethodECDSA`. -/
  | ECDSA (name : String)
  /-- The `none` method. -/
  | none
  deriving DecidableEq, Repr

/-- The function `jwt.GetSigningMethod` with the methods the library registers in its
`init` functions. -/
def GetSigningMethod (alg : String) : Option SigningMethod :=
  match alg with
  | "RS256" => some (.RSA "RS256")
  | "RS384" => some (.RSA "RS384")
  | "RS512" => some (.RSA "RS512")
  | "PS256" => some (.RSAPSS "PS256")
  | "PS384" => some (.RSAPSS "PS384")
  | "PS512" => some (.RSAPSS "PS512")
  | "HS256" => some (.HMAC "HS256")
  | "HS384" => some (.HMAC "HS384")
  | "HS512" => some (.HMAC "HS512")
  | "ES256" => some (.ECDSA "ES256")
  | "ES384" => some (.ECDSA "ES384")
  | "ES512" => some (.ECDSA "ES512")
  | "none" => some .none
  | _ => Option.none

/-- The struct `jwt.ValidationError`. -/
structure ValidationError where
  Inner : Option GoError
  Errors : Nat
  text : String
  deriving DecidableEq, Repr

/-- The method `ValidationError.Error`. -/
def ValidationError.Error (e : ValidationError) : String :=
  match e.Inner with
  | some inner => inner.Error
  | none => if e.text ≠ "" then e.text else "token is invalid"

/-- The constant `ValidationErrorMalformed`. -/
def ValidationErrorMalformed : Nat := 1
/-- The constant `ValidationErrorUnverifiable`. -/
def ValidationErrorUnverifiable : Nat := 2
/-- The constant `ValidationErrorSignatureInvalid`. -/
def ValidationErrorSignatureInvalid : Nat := 4
/-- The constant `ValidationErrorClaimsInvalid`. -/
def ValidationErrorClaimsInvalid : Nat := 512

/-- The function `jwt.NewValidationError`. -/
def NewValidationError (errorText : String) (errorFlags : Nat) : ValidationError :=
  { Inner := none, Errors := errorFlags, text := errorText }

/-- The struct `jwt.Token` with claims of type `κ`. -/
structure Token (κ : Type) where
  Raw : String
  Method : Option SigningMethod
  Header : Header
  Claims : Option κ
  Signature : String
  Valid : Bool

/-- What `token.Claims.Valid()` returns when it is not nil: a `*ValidationError` or an
error of another type. -/
inductive ClaimsError where
  | validation (e : ValidationError)
  | plain (err : GoError)

/-- The parts of the JWT library that depend on text formats, the clock and cryptography,
none of which is modelled: `DecodeSegment`, `json.Unmarshal` into the header map, the JSON
decoding of the claims segment into the claims value, `Claims.Valid` and
`SigningMethod.Verify`. -/
structure JwtLib (κ : Type) where
  DecodeSegment : String → Except String (List Nat)
  UnmarshalHeader : List Nat → Except String Header
  DecodeClaims : List Nat → κ → Except String κ
  Valid : κ → Option ClaimsError
  Verify : SigningMethod → String → String → Option RSAPublicKey → Option String

/-- The pieces of `cs` between the dots, `cur` being the reversed piece under way. -/
def splitDots : List Char → List Char → List String
  | [], cur => [String.mk cur.reverse]
  | c :: cs, cur => if c = '.' then String.mk cur.reverse :: splitDots cs [] else splitDots cs (c :: cur)

/-- The call `strings.Split(s, ".")`. -/
def Split (s : String) : List String := splitDots s.data []

/-- The method `Parser.ParseUnverified` of a zero `Parser`: the token, the segments and the
error. -/
def ParseUnverified {κ : Type} (lib : JwtLib κ) (tokenString : String) (claims : κ) :
    Option (Token κ) × List String × Option ValidationError :=
  let parts := Split tokenString
  if parts.length ≠ 3 then
    (none, parts,
      some (NewValidationError "token contains an invalid number of segments"
        ValidationErrorMalformed))
  else
    let token : Token κ :=
      { Raw := tokenString, Method := none, Header := [], Claims := none, Signature := "",
        Valid := false }
    match lib.DecodeSegment (parts.getD 0 "") with
    | .error err =>
      if tokenString.toLower.startsWith "bearer " then
        (some token, parts,
          some (NewValidationError "tokenstring should not contain \x27bearer \x27"
            ValidationErrorMalformed))
      else
        (some token, parts, some ⟨some (.external err), ValidationErrorMalformed, ""⟩)
    | .ok headerBytes =>
      match lib.UnmarshalHeader headerBytes with
      | .error err =>
        (some token, parts, some ⟨some (.external err), ValidationErrorMalformed, ""⟩)
      | .ok header =>
        let token := { token with Header := header, Claims := some claims }
        match lib.DecodeSegment (parts.getD 1 "") with
        | .error err =>
          (some token, parts, some ⟨some (.external err), ValidationErrorMalformed, ""⟩)
        | .ok claimBytes =>
          match lib.DecodeClaims claimBytes claims with
          | .error err =>
            (some token, parts, some ⟨some (.external err), ValidationErrorMalformed, ""⟩)
          | .ok decoded =>
            let token := { token with Claims := some decoded }
            match token.Header.get "alg" with
            | .string method =>
              match GetSigningMethod method with
              | Option.none =>
                (some token, parts,
                  some (NewValidationError "signing method (alg) is unavailable."
                    ValidationErrorUnverifiable))
              | some m => (some { token with Method := some m }, parts, Option.none)
            | _ =>
              (some token, parts,
                some (NewValidationError "signing method (alg) is unspecified."
                  ValidationErrorUnverifiable))

/-- What a `jwt.Keyfunc` does: it returns its pair `(key, error)` or panics. -/
inductive KeyOutcome where
  | returned (key : Option RSAPublicKey) (err : Option GoError)
  | panicked (msg : String)
  deriving DecidableEq, Repr

/-- What `ParseWithClaims` does: it returns its pair `(*Token, error)` or a panic of the
key function unwinds through it (the library recovers from none). -/
inductive ParseResult (κ : Type) where
  | returned (token : Option (Token κ)) (err : Option ValidationError)
  | panicked (msg : String)

/-- A call `token.Method.Verify(signingString, signature, key)`. -/
structure Verification where
  method : SigningMethod
  signingString : String
  signature : String
  key : Option RSAPublicKey
  deriving DecidableEq, Repr

/-- A run of `ParseWithClaims`: the result, the state the key function leaves and the
signature verifications made. -/
structure ParseRun (κ S : Type) where
  result : ParseResult κ
  state : S
  verifications : List Verification

/-- The function `jwt.ParseWithClaims` (a zero `Parser`: no `ValidMethods`, claims
validated) with a key function that works on a state `S`.  An error of the key function is
wrapped as `ValidationError{Inner: err, Errors: ValidationErrorUnverifiable}`; the library
returns it unwrapped when it is a `*ValidationError` already, which no error value of
`GoError` is.  The signature is verified only after the key function returned a key. -/
def ParseWithClaims {κ S : Type} (lib : JwtLib κ) (tokenString : String) (claims : κ)
    (keyFunc : Token κ → S → KeyOutcome × S) (s : S) : ParseRun κ S :=
  match ParseUnverified lib tokenString claims with
  | (token, _, some err) => ⟨.returned token (some err), s, []⟩
  | (Option.none, _, Option.none) => ⟨.panicked nilDereference, s, []⟩
  | (some token, parts, Option.none) =>
    match keyFunc token s with
    | (.panicked msg, s1) => ⟨.panicked msg, s1, []⟩
    | (.returned _ (some err), s1) =>
      ⟨.returned (some token) (some ⟨some err, ValidationErrorUnverifiable, ""⟩), s1, []⟩
    | (.returned key Option.none, s1) =>
      let vErr : ValidationError := ⟨Option.none, 0, ""⟩
      let vErr : ValidationError :=
        match token.Claims.bind lib.Valid with
        | some (.validation e) => e
        | some (.plain err) => ⟨some err, ValidationErrorClaimsInvalid, ""⟩
        | Option.none => vErr
      let token := { token with Signature := parts.getD 2 "" }
      let method := token.Method.getD .none
      let signingString := parts.getD 0 "" ++ "." ++ parts.getD 1 ""
      let check : Verification := ⟨method, signingString, token.Signature, key⟩
      let vErr : ValidationError :=
        match lib.Verify method signingString token.Signature key with
        | some err =>
          { vErr with Inner := some (.external err),
                      Errors := vErr.Errors ||| ValidationErrorSignatureInvalid }
        | Option.none => vErr
      if vErr.Errors = 0 then ⟨.returned (some { token with Valid := true }) Option.none, s1, [check]⟩
      else ⟨.returned (some token) (some vErr), s1, [check]⟩

/-- The panic of a failed type assertion `v.(string)` on an empty interface. -/
def assertStringPanic (v : Value) : String :=
  match v with
  | .nil => "interface conversion: interface \x7b\x7d is nil, not string"
  | .string _ => ""
  | .other goType _ => "interface conversion: interface \x7b\x7d is " ++ goType ++ ", not string"

/-- The state the key function of `DecodeAccessTokenClaims` works on: the decoder, the
manager state and the manager calls made so far. -/
structure KeyState (μ : Type) where
  decoder : jwtDecoder μ
  manager : μ
  calls : List ManagerCall

/-- The function literal passed to `jwt.ParseWithClaims` in `DecodeAccessTokenClaims`. -/
def keyFunc {κ μ : Type} (realm : String) (token : Token κ) (s : KeyState μ) :
    KeyOutcome × KeyState μ :=
  match token.Header.get "kid" with
  | .string kid =>
    let r := s.decoder.publicKey kid realm s.manager
    let s1 : KeyState μ := ⟨r.decoder, r.manager, s.calls ++ r.calls⟩
    match r.err with
    | some err => (.returned Option.none (some err), s1)
    | Option.none =>
      match token.Method with
      | some (.RSA _) => (.returned r.key Option.none, s1)
      | _ =>
        (.returned Option.none
          (some (.fmtErrorf ("unexpected signing method: " ++ (token.Header.get "alg").format))),
          s1)
  | v => (.panicked (assertStringPanic v), s)

/-- A run of `DecodeAccessTokenClaims`: the result, the decoder and manager state it leaves,
the manager calls and the signature verifications it made. -/
structure DecodeRun (κ μ : Type) where
  result : ParseResult κ
  decoder : jwtDecoder μ
  manager : μ
  calls : List ManagerCall
  verifications : List Verification

/-- The method `jwtDecoder.DecodeAccessTokenClaims`, run with the manager in state `m`. -/
def jwtDecoder.DecodeAccessTokenClaims {κ μ : Type} (lib : JwtLib κ) (j : jwtDecoder μ)
    (token realm : String) (claims : κ) (m : μ) : DecodeRun κ μ :=
  let run := ParseWithClaims lib token claims (keyFunc realm) (⟨j, m, []⟩ : KeyState μ)
  ⟨run.result, run.state.decoder, run.state.manager, run.state.calls, run.verifications⟩

/-! ## Conditions on a run of `certManager.Cert` and sample values -/

/-- The discovery GET of `certManager.Cert`, made in client state `s`, returns a response
and no error, its status is in `[200, 299]` and its body decodes with `jwks_uri` equal to
`urlKeys`; `s1` is the client state after the call. -/
def Discovered {σ : Type} (env : Platform) (cm : certManager σ) (realm : String) (s : σ)
    (urlKeys : String) (s1 : σ) : Prop :=
  ∃ resp : Response,
    cm.httpClient.Do (env.NewRequest "GET" (configurationURL cm.basePath realm)) s =
        ((some resp, none), s1) ∧
      200 ≤ resp.StatusCode ∧ resp.StatusCode ≤ 299 ∧
      env.decodeConfigRealm resp.Body = .ok urlKeys

/-- Both GETs of `certManager.Cert` return a response and no error, with a status in
`[200, 299]` and a body that decodes, the JWKS body with `keys` as its entries; `s2` is the
client state after the two calls. -/
def Fetched {σ : Type} (env : Platform) (cm : certManager σ) (realm : String) (s : σ)
    (keys : List Cert) (s2 : σ) : Prop :=
  ∃ (urlKeys : String) (s1 : σ) (respKeys : Response),
    Discovered env cm realm s urlKeys s1 ∧
      cm.httpClient.Do (env.NewRequest "GET" urlKeys) s1 = ((some respKeys, none), s2) ∧
      200 ≤ respKeys.StatusCode ∧ respKeys.StatusCode ≤ 299 ∧
      env.decodeKResp respKeys.Body = .ok keys

/-- A client that plays back a script: each call returns the next scripted result pair. -/
def scriptedClient : HttpClient (List (Option Response × Option String)) :=
  { Do := fun _ s =>
      match s with
      | [] => ((none, some "no more responses"), [])
      | r :: rest => (r, rest) }

/-- The discovery document of the tests. -/
def sampleConfiguration : String :=
  "\x7b\"jwks_uri\":\"http://base/test/protocol/openid-connect/certs\"\x7d"

/-- A JWKS document with two entries of the same `kid`, both with an exponent. -/
def sampleKeysBody : String :=
  "\x7b\"keys\":[\x7b\"kid\":\"k1\",\"kty\":\"RSA\",\"n\":\"DKE\",\"e\":\"AQAB\"\x7d," ++
    "\x7b\"kid\":\"k1\",\"kty\":\"RSA\",\"n\":\"DKE\",\"e\":\"EQ\"\x7d]\x7d"

/-- The entries of `sampleKeysBody`. -/
def sampleKeys : List Cert :=
  [{ Kty := "RSA", Use := "", Kid := "k1", X5t := "", N := "DKE", E := "AQAB", X5c := [] },
   { Kty := "RSA", Use := "", Kid := "k1", X5t := "", N := "DKE", E := "EQ", X5c := [] }]

/-- A JWKS document with two entries of the same `kid`, the first with an empty exponent. -/
def sampleKeysBodyEmptyE : String :=
  "\x7b\"keys\":[\x7b\"kid\":\"k1\",\"kty\":\"RSA\",\"n\":\"DKE\",\"e\":\"\"\x7d," ++
    "\x7b\"kid\":\"k1\",\"kty\":\"RSA\",\"n\":\"DKE\",\"e\":\"AQAB\"\x7d]\x7d"

/-- The entries of `sampleKeysBodyEmptyE`. -/
def sampleKeysEmptyE : List Cert :=
  [{ Kty := "RSA", Use := "", Kid := "k1", X5t := "", N := "DKE", E := "", X5c := [] },
   { Kty := "RSA", Use := "", Kid := "k1", X5t := "", N := "DKE", E := "AQAB", X5c := [] }]

/-- A platform for the samples: requests are built from any URL, and the JSON decoders know
the sample documents. -/
def samplePlatform : Platform :=
  { NewRequest := fun method url => some ⟨method, url⟩
    decodeConfigRealm := fun body =>
      if body = sampleConfiguration then .ok "http://base/test/protocol/openid-connect/certs"
      else .error "invalid character"
    decodeKResp := fun body =>
      if body = sampleKeysBody then .ok sampleKeys
      else if body = sampleKeysBodyEmptyE then .ok sampleKeysEmptyE
      else .error "invalid character" }

/-- The script in which both GETs succeed and the JWKS body is `sampleKeysBody`. -/
def sampleScript : List (Option Response × Option String) :=
  [(some ⟨200, sampleConfiguration⟩, none), (some ⟨200, sampleKeysBody⟩, none)]

/-- The script in which both GETs succeed and the JWKS body is `sampleKeysBodyEmptyE`. -/
def sampleScriptEmptyE : List (Option Response × Option String) :=
  [(some ⟨200, sampleConfiguration⟩, none), (some ⟨200, sampleKeysBodyEmptyE⟩, none)]

/-- The manager of the tests, `NewCertManager("test", client)`, over the scripted client. -/
def sampleManager : certManager (List (Option Response × Option String)) :=
  NewCertManager "test" scriptedClient

/-- The script of the test `request configuration not found`: the discovery GET returns 404. -/
def sampleScriptDiscovery404 : List (Option Response × Option String) :=
  [(some ⟨404, ""⟩, none)]

/-- The script of the test `request certs not found`: the discovery GET succeeds and the
JWKS GET returns 404. -/
def sampleScriptCerts404 : List (Option Response × Option String) :=
  [(some ⟨200, sampleConfiguration⟩, none), (some ⟨404, "not found"⟩, none)]

/-- The script of the test `error request certs`: the discovery GET succeeds and the JWKS
GET fails in the client. -/
def sampleScriptCertsError : List (Option Response × Option String) :=
  [(some ⟨200, sampleConfiguration⟩, none), (none, some "error certs")]

/-! ## Conditions on a run of `DecodeAccessTokenClaims` and sample values -/

/-- The token has exactly three segments, its first segment decodes to the header `hdr`
and its second segment decodes into the claims value. -/
def Parses {κ : Type} (lib : JwtLib κ) (token : String) (claims : κ) (hdr : Header) : Prop :=
  ∃ (h c sg : String) (hb cb : List Nat) (cl : κ),
    Split token = [h, c, sg] ∧ lib.DecodeSegment h = .ok hb ∧ lib.UnmarshalHeader hb = .ok hdr ∧
      lib.DecodeSegment c = .ok cb ∧ lib.DecodeClaims cb claims = .ok cl

/-- The bytes of an ASCII text. -/
def textBytes (s : String) : List Nat := s.data.map Char.toNat

/-- The header `alg: none, kid: kid, typ: JWT` as JSON text. -/
def headerNoneText : String := "\x7b\"alg\":\"none\",\"kid\":\"kid\",\"typ\":\"JWT\"\x7d"

/-- The header `alg: RS256, typ: JWT`, without a kid, as JSON text. -/
def headerNoKidText : String := "\x7b\"alg\":\"RS256\",\"typ\":\"JWT\"\x7d"

/-- The header `alg: XS999, kid: kid, typ: JWT`, an algorithm no method is registered for,
as JSON text. -/
def headerUnknownText : String := "\x7b\"alg\":\"XS999\",\"kid\":\"kid\",\"typ\":\"JWT\"\x7d"

/-- The claims `dat: Can be anything` as JSON text. -/
def claimsText : String := "\x7b\"dat\":\"Can be anything\"\x7d"

/-- A JWT library for the samples: segments are decoded as unpadded base64url, the JSON
decoders know the sample texts, claims are always valid and no signature verifies. -/
def sampleJwtLib : JwtLib (List (String × Value)) :=
  { DecodeSegment := fun seg =>
      match DecodeString seg with
      | .ok bytes => .ok bytes
      | .error err => .error err.Error
    UnmarshalHeader := fun bytes =>
      if bytes = textBytes headerNoneText then
        .ok [("alg", .string "none"), ("kid", .string "kid"), ("typ", .string "JWT")]
      else if bytes = textBytes headerNoKidText then
        .ok [("alg", .string "RS256"), ("typ", .string "JWT")]
      else if bytes = textBytes headerUnknownText then
        .ok [("alg", .string "XS999"), ("kid", .string "kid"), ("typ", .string "JWT")]
      else .error "invalid character"
    DecodeClaims := fun bytes _ =>
      if bytes = textBytes claimsText then .ok [("dat", .string "Can be anything")]
      else .error "invalid character"
    Valid := fun _ => none
    Verify := fun _ _ _ _ => some "crypto/rsa: verification error" }

/-- A token with the header `headerNoneText`, the claims `claimsText` and an empty
signature, as `generateTokenInvalidSigningMethod` of the tests builds it. -/
def tokenNone : String :=
  "eyJhbGciOiJub25lIiwia2lkIjoia2lkIiwidHlwIjoiSldUIn0.eyJkYXQiOiJDYW4gYmUgYW55dGhpbmcifQ."

/-- A token with the header `headerNoKidText`, the claims `claimsText` and some signature. -/
def tokenNoKid : String :=
  "eyJhbGciOiJSUzI1NiIsInR5cCI6IkpXVCJ9.eyJkYXQiOiJDYW4gYmUgYW55dGhpbmcifQ.c2ln"

/-- A token with the header `headerUnknownText`, the claims `claimsText` and some signature. -/
def tokenUnknown : String :=
  "eyJhbGciOiJYUzk5OSIsImtpZCI6ImtpZCIsInR5cCI6IkpXVCJ9.eyJkYXQiOiJDYW4gYmUgYW55dGhpbmcifQ.c2ln"

/-- The `Cert` the mock managers of the tests return, `Cert{Kid: kid}`. -/
def mockCert (kid : String) : Cert := { emptyCert with Kid := kid }

/-- The manager of the tests `success` and `invalid signing method`: `Cert` returns
`Cert{Kid: kid}` and `PublicKey` returns the key `pub`. -/
def mockManager (pub : RSAPublicKey) : Manager Unit :=
  { Cert := fun kid _ m => ((some (mockCert kid), none), m)
    PublicKey := fun _ m => ((some pub, none), m) }

/-- The manager of the test `error get cert`: `Cert` fails. -/
def mockManagerCertError (pub : RSAPublicKey) : Manager Unit :=
  { Cert := fun _ _ m => ((none, some (.external "error cert")), m)
    PublicKey := fun _ m => ((some pub, none), m) }

/-- The manager of the test `error get public key`: `Cert` returns `Cert{Kid: kid}` and
`PublicKey` fails. -/
def mockManagerKeyError : Manager Unit :=
  { Cert := fun kid _ m => ((some (mockCert kid), none), m)
    PublicKey := fun _ m => ((none, some (.external "error public key")), m) }

/-- A manager whose Certs differ from realm to realm: `Cert` returns a Cert with the
requested kid and the realm in its `use` field, and `PublicKey` returns a fixed key. -/
def realmManager : Manager Unit :=
  { Cert := fun kid realm m => ((some { emptyCert with Kid := kid, Use := realm }, none), m)
    PublicKey := fun _ m => ((some ⟨3233, 65537⟩, none), m) }

/-- The error text of a result of `ParseWithClaims`, the empty text when there is none. -/
def ParseResult.errorText {κ : Type} : ParseResult κ → String
  | .returned _ (some err) => err.Error
  | .returned _ none => ""
  | .panicked _ => ""

/-! ## Base64 round trip -/

theorem decodeMap_encodeChar (v : Nat) (h : v < 64) : decodeMap (encodeChar v) = some v := by
  interval_cases v <;> rfl

theorem decodeLoop_sextet (v : Nat) (h : v < 64) (cs : List Char) (si : Nat)
    (dbuf out : List Nat) :
    decodeLoop (encodeChar v :: cs) si dbuf out =
      if dbuf.length = 3 then
        decodeLoop cs (si + (encodeChar v).utf8Size) [] (out ++ quantumBytes (dbuf ++ [v]))
      else decodeLoop cs (si + (encodeChar v).utf8Size) (dbuf ++ [v]) out := by
  rw [decodeLoop, decodeMap_encodeChar v h]

theorem quantumBytes_four (b0 b1 b2 : Nat) (h0 : b0 < 256) (h1 : b1 < 256) (h2 : b2 < 256) :
    quantumBytes [(b0 * 65536 + b1 * 256 + b2) / 262144 % 64,
      (b0 * 65536 + b1 * 256 + b2) / 4096 % 64,
      (b0 * 65536 + b1 * 256 + b2) / 64 % 64,
      (b0 * 65536 + b1 * 256 + b2) % 64] = [b0, b1, b2] := by
  simp only [quantumBytes, List.getD_cons_zero, List.getD_cons_succ, List.length_cons,
    List.length_nil]
  simp only [List.take, List.cons.injEq, and_true]
  refine ⟨?_, ?_, ?_⟩ <;> omega

theorem quantumBytes_three (b0 b1 : Nat) (h0 : b0 < 256) (h1 : b1 < 256) :
    quantumBytes [(b0 * 65536 + b1 * 256) / 262144 % 64,
      (b0 * 65536 + b1 * 256) / 4096 % 64,
      (b0 * 65536 + b1 * 256) / 64 % 64] = [b0, b1] := by
  simp only [quantumBytes, List.getD_cons_zero, List.getD_cons_succ, List.length_cons,
    List.length_nil, List.getD_nil]
  simp only [List.take, List.cons.injEq, and_true]
  refine ⟨?_, ?_⟩ <;> omega

theorem quantumBytes_two (b0 : Nat) (h0 : b0 < 256) :
    quantumBytes [(b0 * 65536) / 262144 % 64, (b0 * 65536) / 4096 % 64] = [b0] := by
  simp only [quantumBytes, List.getD_cons_zero, List.getD_cons_succ, List.length_cons,
    List.length_nil, List.getD_nil]
  simp only [List.take, List.cons.injEq, and_true]
  omega

theorem decodeLoop_encode (bs : List Nat) (hb : ∀ b ∈ bs, b < 256) (si : Nat) (out : List Nat) :
    decodeLoop (encode bs) si [] out = .ok (out ++ bs) := by
  induction bs using encode.induct generalizing si out with
  | case1 b0 b1 b2 rest ih =>
      have h0 : b0 < 256 := hb b0 (by simp)
      have h1 : b1 < 256 := hb b1 (by simp)
      have h2 : b2 < 256 := hb b2 (by simp)
      have hr : ∀ b ∈ rest, b < 256 := fun b hm => hb b (by simp [hm])
      rw [encode]
      rw [decodeLoop_sextet _ (Nat.mod_lt _ (by decide)), if_neg (by simp),
        decodeLoop_sextet _ (Nat.mod_lt _ (by decide)), if_neg (by simp),
        decodeLoop_sextet _ (Nat.mod_lt _ (by decide)), if_neg (by simp),
        decodeLoop_sextet _ (Nat.mod_lt _ (by decide)), if_pos (by simp)]
      simp only [List.nil_append, List.cons_append]
      rw [quantumBytes_four b0 b1 b2 h0 h1 h2, ih hr]
      simp
  | case2 b0 b1 =>
      have h0 : b0 < 256 := hb b0 (by simp)
      have h1 : b1 < 256 := hb b1 (by simp)
      rw [encode]
      rw [decodeLoop_sextet _ (Nat.mod_lt _ (by decide)), if_neg (by simp),
        decodeLoop_sextet _ (Nat.mod_lt _ (by decide)), if_neg (by simp),
        decodeLoop_sextet _ (Nat.mod_lt _ (by decide)), if_neg (by simp)]
      simp only [List.nil_append, List.cons_append]
      rw [decodeLoop, if_neg (by simp), quantumBytes_three b0 b1 h0 h1]
  | case3 b0 =>
      have h0 : b0 < 256 := hb b0 (by simp)
      rw [encode]
      rw [decodeLoop_sextet _ (Nat.mod_lt _ (by decide)), if_neg (by simp),
        decodeLoop_sextet _ (Nat.mod_lt _ (by decide)), if_neg (by simp)]
      simp only [List.nil_append, List.cons_append]
      rw [decodeLoop, if_neg (by simp), quantumBytes_two b0 h0]
  | case4 => simp [encode, decodeLoop, quantumBytes]

theorem DecodeString_EncodeToString (bs : List Nat) (hb : ∀ b ∈ bs, b < 256) :
    DecodeString (EncodeToString bs) = .ok bs := by
  simpa [DecodeString, EncodeToString] using decodeLoop_encode bs hb 0 []

/-! ## What the decoder accepts -/

theorem decodeMap_isSome (c : Char) : (decodeMap c).isSome = encodeURL.contains c := by
  unfold decodeMap
  have hlen : encodeURL.length = 64 := by decide
  by_cases h : c ∈ encodeURL
  · have := List.indexOf_lt_length.mpr h
    rw [hlen] at this
    simp [this, h]
  · have : ¬ List.indexOf c encodeURL < 64 := by
      rw [← hlen]; exact fun hh => h (List.indexOf_lt_length.mp hh)
    simp only [if_neg this]
    simp [h]

theorem decodeLoop_ok_iff (cs : List Char) (si : Nat) (dbuf out : List Nat) (hd : dbuf.length ≤ 3) :
    (∃ bs, decodeLoop cs si dbuf out = .ok bs) ↔
      (cs.all (fun c => encodeURL.contains c || c == '\n' || c == '\r') = true ∧
        (dbuf.length + (cs.filter (fun c => encodeURL.contains c)).length) % 4 ≠ 1) := by
  induction cs generalizing si dbuf out with
  | nil =>
      rw [decodeLoop]
      by_cases h : dbuf.length = 1
      · simp [h]
      · simp only [if_neg h]
        simp
        omega
  | cons c cs ih =>
      rw [decodeLoop]
      have hs := decodeMap_isSome c
      cases hm : decodeMap c with
      | some v =>
          rw [hm] at hs
          have hc : encodeURL.contains c = true := by simpa using hs.symm
          simp only [List.all_cons, hc, Bool.true_or, Bool.true_and, List.filter_cons, if_true,
            List.length_cons]
          by_cases h3 : dbuf.length = 3
          · rw [if_pos h3, ih _ _ _ (by simp)]
            simp only [List.length_nil]
            constructor
            · rintro ⟨h1, h2⟩; exact ⟨h1, by omega⟩
            · rintro ⟨h1, h2⟩; exact ⟨h1, by omega⟩
          · rw [if_neg h3, ih _ _ _ (by simp; omega)]
            simp only [List.length_append, List.length_singleton]
            constructor
            · rintro ⟨h1, h2⟩; exact ⟨h1, by omega⟩
            · rintro ⟨h1, h2⟩; exact ⟨h1, by omega⟩
      | none =>
          rw [hm] at hs
          have hc : encodeURL.contains c = false := by simpa using hs.symm
          have hmem : c ∉ encodeURL := by simpa using hc
          by_cases hnl : c = '\n' ∨ c = '\r'
          · simp only [if_pos hnl]
            rw [ih _ _ _ hd]
            have hf : List.filter (fun c => encodeURL.contains c) (c :: cs) =
                List.filter (fun c => encodeURL.contains c) cs := by
              rw [List.filter_cons, hc]; rfl
            have hb : (encodeURL.contains c || c == '\n' || c == '\r') = true := by
              rcases hnl with h | h <;> simp [h]
            rw [List.all_cons, hf, hb, Bool.true_and]
          · simp only [if_neg hnl]
            have h1 : c ≠ '\n' := fun h => hnl (Or.inl h)
            have h2 : c ≠ '\r' := fun h => hnl (Or.inr h)
            simp [hmem, h1, h2]

theorem DecodeString_ok_iff (s : String) :
    (∃ bs, DecodeString s = .ok bs) ↔ acceptedRawURL s = true := by
  unfold DecodeString acceptedRawURL
  rw [decodeLoop_ok_iff s.data 0 [] [] (by simp)]
  simp

theorem alphabet_not_newline (c : Char) (h : encodeURL.contains c = true) :
    c ≠ '\n' ∧ c ≠ '\r' := by
  constructor
  · intro hc; subst hc; revert h; decide
  · intro hc; subst hc; revert h; decide

theorem all_filter_newlines (l : List Char) :
    (l.filter (fun c => c != '\n' && c != '\r')).all (fun c => encodeURL.contains c) =
      l.all (fun c => encodeURL.contains c || c == '\n' || c == '\r') := by
  induction l with
  | nil => rfl
  | cons c cs ih =>
    by_cases hnl : c = '\n' ∨ c = '\r'
    · have hp : (c != '\n' && c != '\r') = false := by
        rcases hnl with h | h <;> subst h <;> decide
      have hq : (encodeURL.contains c || c == '\n' || c == '\r') = true := by
        rcases hnl with h | h <;> subst h <;> decide
      rw [List.filter_cons, hp, List.all_cons, hq, Bool.true_and]
      exact ih
    · have h1 : c ≠ '\n' := fun h => hnl (Or.inl h)
      have h2 : c ≠ '\r' := fun h => hnl (Or.inr h)
      have hp : (c != '\n' && c != '\r') = true := by simp [h1, h2]
      have e1 : (c == '\n') = false := by simpa using h1
      have e2 : (c == '\r') = false := by simpa using h2
      have hq : (encodeURL.contains c || c == '\n' || c == '\r') = encodeURL.contains c := by
        rw [e1, e2, Bool.or_false, Bool.or_false]
      rw [List.filter_cons, hp, if_pos rfl, List.all_cons, List.all_cons, hq, ih]

theorem filter_newlines_eq (l : List Char)
    (h : l.all (fun c => encodeURL.contains c || c == '\n' || c == '\r') = true) :
    l.filter (fun c => c != '\n' && c != '\r') = l.filter (fun c => encodeURL.contains c) := by
  induction l with
  | nil => rfl
  | cons c cs ih =>
    rw [List.all_cons, Bool.and_eq_true] at h
    obtain ⟨hc, hcs⟩ := h
    by_cases ha : encodeURL.contains c = true
    · obtain ⟨h1, h2⟩ := alphabet_not_newline c ha
      have hp : (c != '\n' && c != '\r') = true := by simp [h1, h2]
      rw [List.filter_cons, hp, if_pos rfl, List.filter_cons, ha, if_pos rfl, ih hcs]
    · have ha2 : encodeURL.contains c = false := by simpa using ha
      rw [ha2] at hc
      have hp : (c != '\n' && c != '\r') = false := by
        have : c = '\n' ∨ c = '\r' := by simpa using hc
        rcases this with h | h <;> subst h <;> decide
      rw [List.filter_cons, hp, List.filter_cons, ha2]
      exact ih hcs

theorem acceptedRawURL_eq (s : String) : acceptedRawURL s = validRawURL (dropNewlines s) := by
  unfold acceptedRawURL validRawURL dropNewlines
  simp only []
  rw [all_filter_newlines]
  cases h : s.data.all (fun c => encodeURL.contains c || c == '\n' || c == '\r') with
  | false => rfl
  | true => rw [filter_newlines_eq s.data h]

/-! ## Big-endian bytes -/

theorem foldl_bytes (l : List Nat) (a : Nat) :
    l.foldl (fun acc b => acc * 256 + b) a = a * 256 ^ l.length + SetBytes l := by
  induction l generalizing a with
  | nil => simp [SetBytes]
  | cons b l ih =>
      simp only [SetBytes, List.foldl_cons, List.length_cons]
      rw [ih, ih (0 * 256 + b)]
      simp only [SetBytes]
      ring

theorem SetBytes_cons (b : Nat) (l : List Nat) :
    SetBytes (b :: l) = b * 256 ^ l.length + SetBytes l := by
  have h := foldl_bytes l (0 * 256 + b)
  simp only [SetBytes, List.foldl_cons] at h ⊢
  rw [h]; ring

theorem SetBytes_replicate_zero (k : Nat) (l : List Nat) :
    SetBytes (List.replicate k 0 ++ l) = SetBytes l := by
  induction k with
  | zero => simp
  | succ k ih => rw [List.replicate_succ, List.cons_append, SetBytes_cons, ih]; simp

theorem SetBytes_bytesAux (fuel n : Nat) (acc : List Nat) (h : n ≤ fuel) :
    SetBytes (bytesAux fuel n acc) = n * 256 ^ acc.length + SetBytes acc := by
  induction fuel generalizing n acc with
  | zero =>
      have : n = 0 := by omega
      subst this; simp [bytesAux]
  | succ fuel ih =>
      rw [bytesAux]
      split
      · next h0 => subst h0; simp
      · next h0 =>
          rw [ih (n / 256) (n % 256 :: acc) (by omega), SetBytes_cons, List.length_cons, pow_succ]
          have hn : n = 256 * (n / 256) + n % 256 := (Nat.div_add_mod n 256).symm
          generalize n / 256 = q at hn ⊢
          generalize n % 256 = r at hn ⊢
          subst hn
          ring

theorem SetBytes_Bytes (n : Nat) : SetBytes (Bytes n) = n := by
  rw [Bytes, SetBytes_bytesAux n n [] (le_refl n)]
  simp [SetBytes]

theorem bytesAux_lt (fuel n : Nat) (acc : List Nat) (hacc : ∀ b ∈ acc, b < 256) :
    ∀ b ∈ bytesAux fuel n acc, b < 256 := by
  induction fuel generalizing n acc with
  | zero => simpa [bytesAux] using hacc
  | succ fuel ih =>
      rw [bytesAux]
      split
      · exact hacc
      · apply ih
        intro b hb
        rcases List.mem_cons.mp hb with h | h
        · subst h; exact Nat.mod_lt _ (by decide)
        · exact hacc b h

theorem Bytes_lt (n : Nat) : ∀ b ∈ Bytes n, b < 256 :=
  bytesAux_lt n n [] (by simp)

theorem bytesAux_length (fuel n k : Nat) (acc : List Nat) (h : n < 256 ^ k) :
    (bytesAux fuel n acc).length ≤ k + acc.length := by
  induction fuel generalizing n k acc with
  | zero => simp [bytesAux]
  | succ fuel ih =>
      rw [bytesAux]
      split
      · omega
      · next h0 =>
          cases k with
          | zero => simp at h; omega
          | succ k =>
              have hlt : n / 256 < 256 ^ k := by
                rw [pow_succ] at h
                exact Nat.div_lt_of_lt_mul (by rw [Nat.mul_comm]; exact h)
              have := ih (n / 256) k (n % 256 :: acc) hlt
              simp only [List.length_cons] at this
              omega

theorem Bytes_length_le (n : Nat) (h : n < 18446744073709551616) : (Bytes n).length ≤ 8 := by
  have := bytesAux_length n n 8 [] (by norm_num; exact h)
  simpa [Bytes] using this

theorem SetBytes_binaryWriteUint64 (u : Nat) (h : u < 18446744073709551616) :
    SetBytes (binaryWriteUint64 u) = u := by
  simp only [SetBytes, binaryWriteUint64, List.foldl_cons, List.foldl_nil]
  omega

theorem binaryWriteUint64_lt (u : Nat) : ∀ b ∈ binaryWriteUint64 u, b < 256 := by
  intro b hb
  simp only [binaryWriteUint64, List.mem_cons, List.mem_singleton, List.not_mem_nil, or_false] at hb
  rcases hb with h | h | h | h | h | h | h | h <;> subst h <;> exact Nat.mod_lt _ (by decide)

theorem intOfUint64_uint64OfInt (e : Int) (h0 : 0 ≤ e) (h1 : e < 9223372036854775808) :
    intOfUint64 (uint64OfInt e) = e := by
  unfold intOfUint64 uint64OfInt
  have h2 : e % 18446744073709551616 = e := Int.emod_eq_of_lt h0 (by omega)
  rw [h2]
  have h3 : e.toNat % 18446744073709551616 = e.toNat := Nat.mod_eq_of_lt (by omega)
  rw [h3]
  split
  · omega
  · omega

/-! ## `certManager.PublicKey` -/

theorem PublicKey_of_decoded {σ : Type} (cm : certManager σ) (c : Cert) (decN decE : List Nat)
    (hn : DecodeString c.N = .ok decN) (he : DecodeString c.E = .ok decE) :
    cm.PublicKey c = .ok
      { N := (SetBytes decN : Int),
        E := intOfUint64 (SetBytes
          ((if decE.length < 8 then List.replicate (8 - decE.length) 0 ++ decE
            else decE).take 8)) } := by
  unfold certManager.PublicKey
  rw [hn, he]
  simp only [binaryReadUint64]
  by_cases h : decE.length < 8
  · have h8 : (List.replicate (8 - decE.length) 0 ++ decE).length = 8 := by
      simp only [List.length_append, List.length_replicate]; omega
    simp only [if_pos h, h8]
    simp
  · have h8 : ¬ decE.length = 0 := by omega
    simp only [if_neg h, if_neg h8]

theorem PublicKey_of_bytes {σ : Type} (cm : certManager σ) (c : Cert) (ns es : List Nat)
    (hns : ∀ b ∈ ns, b < 256) (hes : ∀ b ∈ es, b < 256) (hlen : es.length ≤ 8)
    (hn : c.N = EncodeToString ns) (he : c.E = EncodeToString es) :
    cm.PublicKey c = .ok { N := (SetBytes ns : Int), E := intOfUint64 (SetBytes es) } := by
  have h1 : DecodeString c.N = .ok ns := by rw [hn]; exact DecodeString_EncodeToString ns hns
  have h2 : DecodeString c.E = .ok es := by rw [he]; exact DecodeString_EncodeToString es hes
  rw [PublicKey_of_decoded cm c ns es h1 h2]
  by_cases h : es.length < 8
  · have h8 : (List.replicate (8 - es.length) 0 ++ es).length = 8 := by
      simp only [List.length_append, List.length_replicate]; omega
    rw [if_pos h, List.take_of_length_le (by omega), SetBytes_replicate_zero]
  · rw [if_neg h, List.take_of_length_le (by omega)]

/-- C1 (JWK round trip).  For every RSA public key with a non-negative modulus `N` and a
non-negative exponent `E` (a Go `int`, so below `2^63`), a `Cert` whose `n` is the unpadded
base64url text of `N.Bytes()` and whose `e` is the unpadded base64url text of either the
minimal big-endian bytes of `E` or the eight bytes `binary.Write` produces for `uint64(E)`,
makes `certManager.PublicKey` return, without error, the key with the same `N` and `E`. -/
theorem PublicKey_round_trip {σ : Type} (cm : certManager σ) (N : Nat) (E : Int) (c : Cert)
    (hE0 : 0 ≤ E) (hE : E < 9223372036854775808)
    (hn : c.N = EncodeToString (Bytes N))
    (he : c.E = EncodeToString (Bytes (uint64OfInt E)) ∨
      c.E = EncodeToString (binaryWriteUint64 (uint64OfInt E))) :
    cm.PublicKey c = .ok { N := (N : Int), E := E } := by
  have hu : uint64OfInt E < 18446744073709551616 := by
    unfold uint64OfInt; omega
  rcases he with he | he
  · rw [PublicKey_of_bytes cm c (Bytes N) (Bytes (uint64OfInt E)) (Bytes_lt N)
      (Bytes_lt _) (Bytes_length_le _ hu) hn he, SetBytes_Bytes, SetBytes_Bytes,
      intOfUint64_uint64OfInt E hE0 hE]
  · rw [PublicKey_of_bytes cm c (Bytes N) (binaryWriteUint64 (uint64OfInt E)) (Bytes_lt N)
      (binaryWriteUint64_lt _) (by simp [binaryWriteUint64]) hn he, SetBytes_Bytes,
      SetBytes_binaryWriteUint64 _ hu, intOfUint64_uint64OfInt E hE0 hE]


/-- Witness of C1: the key `(3233, 65537)` with `e` in its minimal form `AQAB`. -/
theorem PublicKey_round_trip_witness :
    sampleManager.PublicKey
        { Kty := "RSA", Use := "sig", Kid := "test", X5t := "", N := "DKE", E := "AQAB", X5c := [] } =
      .ok { N := 3233, E := 65537 } :=
  PublicKey_round_trip sampleManager 3233 65537 _ (by decide) (by decide) (by decide)
    (Or.inl (by decide))

/-- C10, as stated, fails: the `n` text `DK`, line feed, `E` is not a valid unpadded base64url
string, yet `certManager.PublicKey` returns no error but the key `(3233, 65537)`: the Go
decoder skips carriage returns and line feeds. -/
theorem PublicKey_error_iff_counterexample :
    validRawURL "DK\nE" = false ∧
    sampleManager.PublicKey
        { Kty := "RSA", Use := "sig", Kid := "test", X5t := "", N := "DK\nE", E := "AQAB",
          X5c := [] } =
      .ok { N := 3233, E := 65537 } := by
  decide

/-- C10, amended (PublicKey failure condition).  `certManager.PublicKey` returns an error
exactly when `cert.N` or `cert.E`, with its carriage returns and line feeds dropped, is not a
valid unpadded base64url string; and whenever both decode, to any number of bytes, it returns
a key: the modulus is the big-endian value of the bytes of `n`, the exponent the `int` of the
first eight bytes of `e` after `e` was padded on the left to eight bytes when shorter.  No
range check rejects a decodable input. -/
theorem PublicKey_error_iff {σ : Type} (cm : certManager σ) (c : Cert) :
    ((∃ err, cm.PublicKey c = .error err) ↔
      (validRawURL (dropNewlines c.N) = false ∨ validRawURL (dropNewlines c.E) = false)) ∧
      (∀ decN decE : List Nat, DecodeString c.N = .ok decN → DecodeString c.E = .ok decE →
        cm.PublicKey c = .ok
          { N := (SetBytes decN : Int),
            E := intOfUint64 (SetBytes
              ((if decE.length < 8 then List.replicate (8 - decE.length) 0 ++ decE
                else decE).take 8)) }) := by
  refine ⟨?_, fun decN decE hn he => PublicKey_of_decoded cm c decN decE hn he⟩
  have hN := DecodeString_ok_iff c.N
  have hE := DecodeString_ok_iff c.E
  rw [acceptedRawURL_eq] at hN hE
  constructor
  · rintro ⟨err, herr⟩
    by_contra hcon
    push_neg at hcon
    obtain ⟨decN, hn⟩ := hN.mpr (by simpa using hcon.1)
    obtain ⟨decE, he⟩ := hE.mpr (by simpa using hcon.2)
    rw [PublicKey_of_decoded cm c decN decE hn he] at herr
    cases herr
  · intro h
    cases hn : DecodeString c.N with
    | error err => exact ⟨err, by simp [certManager.PublicKey, hn]⟩
    | ok decN =>
      cases he : DecodeString c.E with
      | error err => exact ⟨err, by simp [certManager.PublicKey, hn, he]⟩
      | ok decE =>
        exfalso
        have h1 := hN.mp ⟨decN, hn⟩
        have h2 := hE.mp ⟨decE, he⟩
        rcases h with h | h
        · rw [h1] at h; cases h
        · rw [h2] at h; cases h

/-- Witness of C10 amended: an `e` that decodes to no byte at all yields the key with exponent 0,
and an `e` of nine bytes yields the key read from its first eight bytes. -/
theorem PublicKey_error_iff_witness :
    sampleManager.PublicKey
        { Kty := "RSA", Use := "sig", Kid := "test", X5t := "", N := "DKE", E := "", X5c := [] } =
      .ok { N := 3233, E := 0 } ∧
    sampleManager.PublicKey
        { Kty := "RSA", Use := "sig", Kid := "test", X5t := "", N := "DKE", E := "AAAAAAAAAAEB",
          X5c := [] } =
      .ok { N := 3233, E := 1 } :=
  ⟨(PublicKey_error_iff sampleManager _).2 [12, 161] [] (by decide) (by decide),
   (PublicKey_error_iff sampleManager _).2 [12, 161] [0, 0, 0, 0, 0, 0, 0, 1, 1] (by decide)
     (by decide)⟩

/-! ## `certManager.Cert` -/

theorem String_length_eq_zero (s : String) : s.length = 0 ↔ s = "" := by
  constructor
  · intro h
    have hd : s.data = [] := List.length_eq_zero.mp h
    exact String.ext hd
  · intro h; subst h; rfl

theorem Cert_of_discovered {σ : Type} (env : Platform) (cm : certManager σ) (kid realm : String)
    (s s1 : σ) (urlKeys : String) (h : Discovered env cm realm s urlKeys s1) :
    (certManager.Cert env cm kid realm s).out =
      (match cm.httpClient.Do (env.NewRequest "GET" urlKeys) s1 with
        | ((_, some err), _) => .error (.external err)
        | ((none, none), _) => .panic nilDereference
        | ((some respKeys, none), _) =>
          if respKeys.StatusCode < 200 ∨ respKeys.StatusCode > 299 then
            .error (.fmtErrorf (keysErrorText respKeys.StatusCode urlKeys))
          else
            match env.decodeKResp respKeys.Body with
            | .error err => .error (.external err)
            | .ok keys =>
              if (selectKey kid keys emptyCert).E.length = 0 then
                .error (.errorsNew "no has key")
              else .ok (selectKey kid keys emptyCert)) := by
  obtain ⟨resp, h1, h2, h3, h4⟩ := h
  unfold certManager.Cert
  simp only [h1, h4]
  rw [if_neg (by omega)]
  rcases hdo : cm.httpClient.Do (env.NewRequest "GET" urlKeys) s1 with ⟨⟨r, e⟩, s2⟩
  rcases r with _ | respKeys <;> rcases e with _ | err <;> try rfl
  simp only []
  by_cases hst : respKeys.StatusCode < 200 ∨ respKeys.StatusCode > 299
  · simp only [if_pos hst]
  · simp only [if_neg hst]
    cases hk : env.decodeKResp respKeys.Body with
    | error err => rfl
    | ok keys =>
      simp only []
      by_cases hE : (selectKey kid keys emptyCert).E.length = 0
      · simp only [if_pos hE]
      · simp only [if_neg hE]

theorem Cert_of_fetched {σ : Type} (env : Platform) (cm : certManager σ) (kid realm : String)
    (s s2 : σ) (keys : List Cert) (h : Fetched env cm realm s keys s2) :
    (certManager.Cert env cm kid realm s).out =
      if (selectKey kid keys emptyCert).E.length = 0 then .error (.errorsNew "no has key")
      else .ok (selectKey kid keys emptyCert) := by
  obtain ⟨urlKeys, s1, respKeys, hd, h1, h2, h3, h4⟩ := h
  rw [Cert_of_discovered env cm kid realm s s1 urlKeys hd, h1]
  simp only [h4]
  rw [if_neg (by omega)]

theorem keysErrorText_ne (code code2 : Int) (url url2 : String) :
    keysErrorText code url ≠ configurationErrorText code2 url2 := by
  intro h
  have h1 := congrArg (fun t => t.data.get? 10) h
  simp only [keysErrorText, configurationErrorText, String.data_append, List.append_assoc] at h1
  simp at h1

theorem selectKey_no_match (kid : String) (keys : List Cert) (d : Cert)
    (h : ∀ k ∈ keys, k.Kid ≠ kid) : selectKey kid keys d = d := by
  induction keys with
  | nil => rfl
  | cons k ks ih =>
      rw [selectKey, if_neg (h k (by simp))]
      exact ih (fun k2 hk2 => h k2 (by simp [hk2]))

theorem selectKey_first (kid : String) (pre post : List Cert) (k d : Cert)
    (hpre : ∀ k2 ∈ pre, k2.Kid ≠ kid) (hk : k.Kid = kid) :
    selectKey kid (pre ++ k :: post) d = k := by
  induction pre with
  | nil => simp [selectKey, hk]
  | cons p ps ih =>
      rw [List.cons_append, selectKey, if_neg (hpre p (by simp))]
      exact ih (fun k2 hk2 => hpre k2 (by simp [hk2]))

theorem first_match_cases (kid : String) (keys : List Cert) :
    (∀ k ∈ keys, k.Kid ≠ kid) ∨
      ∃ pre k post, keys = pre ++ k :: post ∧ (∀ k2 ∈ pre, k2.Kid ≠ kid) ∧ k.Kid = kid := by
  induction keys with
  | nil => left; simp
  | cons k ks ih =>
      by_cases hk : k.Kid = kid
      · right; exact ⟨[], k, ks, rfl, by simp, hk⟩
      · rcases ih with h | ⟨pre, k1, post, h1, h2, h3⟩
        · left
          intro k2 hk2
          rcases List.mem_cons.mp hk2 with h4 | h4
          · subst h4; exact hk
          · exact h k2 h4
        · right
          refine ⟨k :: pre, k1, post, by rw [h1]; rfl, ?_, h3⟩
          intro k2 hk2
          rcases List.mem_cons.mp hk2 with h4 | h4
          · subst h4; exact hk
          · exact h2 k2 h4

/-- C4, as stated, fails: in the JWKS document `sampleKeysBodyEmptyE` two entries share the
kid `k1` and the first of them has an empty `e`; both GETs return 200 with decodable bodies,
and `certManager.Cert` does not return the first entry but the error `no has key`. -/
theorem Cert_first_match_counterexample :
    (certManager.Cert samplePlatform sampleManager "k1" "test"
        sampleScriptEmptyE).out =
      .error (.errorsNew "no has key") ∧
    (certManager.Cert samplePlatform sampleManager "k1" "test"
        sampleScriptEmptyE).out ≠
      .ok { Kty := "RSA", Use := "", Kid := "k1", X5t := "", N := "DKE", E := "", X5c := [] } := by
  decide

/-- C4, amended (first-match selection).  When both GETs return a 2xx status with decodable
bodies and `k` is the first entry of `keys`, in document order, whose kid is the requested
one (whatever entries of the same kid follow it), `certManager.Cert` returns `k` itself, equal
in every field, if `k.E` is not empty; if `k.E` is empty it fails with `no has key` and
returns no later entry. -/
theorem Cert_first_match {σ : Type} (env : Platform) (cm : certManager σ) (kid realm : String)
    (s s2 : σ) (pre post : List Cert) (k : Cert)
    (h : Fetched env cm realm s (pre ++ k :: post) s2)
    (hpre : ∀ k2 ∈ pre, k2.Kid ≠ kid) (hk : k.Kid = kid) :
    (k.E ≠ "" → (certManager.Cert env cm kid realm s).out = .ok k) ∧
      (k.E = "" → (certManager.Cert env cm kid realm s).out = .error (.errorsNew "no has key")) := by
  rw [Cert_of_fetched env cm kid realm s s2 _ h, selectKey_first kid pre post k emptyCert hpre hk]
  constructor
  · intro hE
    rw [if_neg (fun h0 => hE ((String_length_eq_zero k.E).mp h0))]
  · intro hE
    rw [if_pos ((String_length_eq_zero k.E).mpr hE)]

/-- Witness of C4 amended: of the two entries of kid `k1` in `sampleKeysBody` the first one,
with `e = AQAB`, is returned. -/
theorem Cert_first_match_witness :
    (certManager.Cert samplePlatform sampleManager "k1" "test"
        sampleScript).out =
      .ok { Kty := "RSA", Use := "", Kid := "k1", X5t := "", N := "DKE", E := "AQAB", X5c := [] } :=
  (Cert_first_match samplePlatform sampleManager "k1" "test" sampleScript []
    [] [{ Kty := "RSA", Use := "", Kid := "k1", X5t := "", N := "DKE", E := "EQ", X5c := [] }]
    { Kty := "RSA", Use := "", Kid := "k1", X5t := "", N := "DKE", E := "AQAB", X5c := [] }
    ⟨"http://base/test/protocol/openid-connect/certs", [(some ⟨200, sampleKeysBody⟩, none)],
      ⟨200, sampleKeysBody⟩,
      ⟨⟨200, sampleConfiguration⟩, rfl, by decide, by decide, by decide⟩,
      rfl, by decide, by decide, by decide⟩
    (by simp) rfl).1 (by decide)

/-- C5 (KeyNotFound condition).  When both GETs return a 2xx status with decodable bodies,
`certManager.Cert` fails with `no has key` if and only if no entry of `keys` has the requested
kid or the first entry that has it has an empty `e`; in every other case it returns a `Cert`
and no error. -/
theorem Cert_no_has_key_iff {σ : Type} (env : Platform) (cm : certManager σ) (kid realm : String)
    (s s2 : σ) (keys : List Cert) (h : Fetched env cm realm s keys s2) :
    ((certManager.Cert env cm kid realm s).out = .error (.errorsNew "no has key") ↔
      ((∀ k ∈ keys, k.Kid ≠ kid) ∨
        ∃ pre k post, keys = pre ++ k :: post ∧ (∀ k2 ∈ pre, k2.Kid ≠ kid) ∧ k.Kid = kid ∧
          k.E = "")) ∧
    (¬ ((∀ k ∈ keys, k.Kid ≠ kid) ∨
        ∃ pre k post, keys = pre ++ k :: post ∧ (∀ k2 ∈ pre, k2.Kid ≠ kid) ∧ k.Kid = kid ∧
          k.E = "") →
      ∃ c, (certManager.Cert env cm kid realm s).out = .ok c) := by
  rw [Cert_of_fetched env cm kid realm s s2 keys h]
  rcases first_match_cases kid keys with hno | ⟨pre, k, post, hkeys, hpre, hk⟩
  · have hsel := selectKey_no_match kid keys emptyCert hno
    rw [hsel]
    have h0 : emptyCert.E.length = 0 := rfl
    rw [if_pos h0]
    exact ⟨⟨fun _ => Or.inl hno, fun _ => rfl⟩, fun hcon => absurd (Or.inl hno) hcon⟩
  · have hsel := selectKey_first kid pre post k emptyCert hpre hk
    rw [hkeys, hsel]
    by_cases hE : k.E = ""
    · rw [if_pos ((String_length_eq_zero k.E).mpr hE)]
      refine ⟨⟨fun _ => Or.inr ⟨pre, k, post, rfl, hpre, hk, hE⟩, fun _ => rfl⟩, fun hcon => ?_⟩
      exact absurd (Or.inr ⟨pre, k, post, rfl, hpre, hk, hE⟩) hcon
    · rw [if_neg (fun h0 => hE ((String_length_eq_zero k.E).mp h0))]
      refine ⟨⟨fun hcon => (by cases hcon), fun hcon => ?_⟩, fun _ => ⟨k, rfl⟩⟩
      exfalso
      rcases hcon with hno | ⟨pre2, k2, post2, hkeys2, hpre2, hk2, hE2⟩
      · exact hno k (by simp) hk
      · have e1 := selectKey_first kid pre2 post2 k2 emptyCert hpre2 hk2
        rw [← hkeys2, hsel] at e1
        exact hE (e1 ▸ hE2)

/-- Witness of C5: no entry of `sampleKeysBody` has the kid `k2`, and `Cert` fails with
`no has key`. -/
theorem Cert_no_has_key_iff_witness :
    (certManager.Cert samplePlatform sampleManager "k2" "test"
        sampleScript).out =
      .error (.errorsNew "no has key") :=
  (Cert_no_has_key_iff samplePlatform sampleManager "k2" "test" sampleScript [] sampleKeys
    ⟨"http://base/test/protocol/openid-connect/certs", [(some ⟨200, sampleKeysBody⟩, none)],
      ⟨200, sampleKeysBody⟩,
      ⟨⟨200, sampleConfiguration⟩, rfl, by decide, by decide, by decide⟩,
      rfl, by decide, by decide, by decide⟩).1.mpr (Or.inl (by decide))

theorem Cert_discovery_error {σ : Type} (env : Platform) (cm : certManager σ) (kid realm : String)
    (s s1 : σ) (r : Option Response) (err : String)
    (h : cm.httpClient.Do (env.NewRequest "GET" (configurationURL cm.basePath realm)) s =
      ((r, some err), s1)) :
    certManager.Cert env cm kid realm s =
      ⟨.error (.external err), s1,
        [.request (env.NewRequest "GET" (configurationURL cm.basePath realm))]⟩ := by
  unfold certManager.Cert
  simp only [h]

theorem Cert_discovery_status {σ : Type} (env : Platform) (cm : certManager σ)
    (kid realm : String) (s s1 : σ) (resp : Response)
    (h : cm.httpClient.Do (env.NewRequest "GET" (configurationURL cm.basePath realm)) s =
      ((some resp, none), s1))
    (hst : resp.StatusCode < 200 ∨ resp.StatusCode > 299) :
    certManager.Cert env cm kid realm s =
      ⟨.error (.fmtErrorf
          (configurationErrorText resp.StatusCode (configurationURL cm.basePath realm))), s1,
        [.request (env.NewRequest "GET" (configurationURL cm.basePath realm))]⟩ := by
  unfold certManager.Cert
  simp only [h]
  rw [if_pos hst]

theorem Cert_discovery_2xx_ne {σ : Type} (env : Platform) (cm : certManager σ)
    (kid realm : String) (s s1 : σ) (resp : Response)
    (h : cm.httpClient.Do (env.NewRequest "GET" (configurationURL cm.basePath realm)) s =
      ((some resp, none), s1))
    (h200 : 200 ≤ resp.StatusCode) (h299 : resp.StatusCode ≤ 299) (code : Int) (url : String) :
    (certManager.Cert env cm kid realm s).out ≠
      .error (.fmtErrorf (configurationErrorText code url)) := by
  unfold certManager.Cert
  simp only [h]
  rw [if_neg (by omega)]
  cases hc : env.decodeConfigRealm resp.Body with
  | error err => simp
  | ok urlKeys =>
    simp only []
    rcases hdo : cm.httpClient.Do (env.NewRequest "GET" urlKeys) s1 with ⟨⟨r, e⟩, s2⟩
    rcases r with _ | respKeys <;> rcases e with _ | err <;> try simp
    by_cases hst : respKeys.StatusCode < 200 ∨ respKeys.StatusCode > 299
    · rw [if_pos hst]
      simp only [ne_eq, Outcome.error.injEq, GoError.fmtErrorf.injEq]
      exact keysErrorText_ne _ _ _ _
    · rw [if_neg hst]
      cases hk : env.decodeKResp respKeys.Body with
      | error err => simp
      | ok keys =>
        simp only []
        split <;> simp

/-- C6 (non-2xx status handling).  For the manager `NewCertManager basePath client`:
a discovery GET that returns a status outside `[200, 299]` makes `Cert` fail with the error
built from exactly `error get configuration. Response code: {code}. Url: {url}`, the URL being
`{basePath}/{realm}/.well-known/openid-configuration` with the trailing `/` of `basePath`
trimmed, and the discovery request is the only request issued; after a successful discovery
a JWKS GET that returns such a status makes `Cert` fail with exactly
`error get keys. Response code: {code}. Url: {jwks_uri}`, the URI as decoded from the discovery
document; and a discovery status inside `[200, 299]` never gives the first error, nor do
discovery and JWKS statuses inside `[200, 299]` give the second. -/
theorem Cert_status_errors {σ : Type} (env : Platform) (basePath : String) (client : HttpClient σ)
    (kid realm : String) (s : σ) :
    (∀ (resp : Response) (s1 : σ),
      client.Do (env.NewRequest "GET"
          (TrimRight basePath "/" ++ "/" ++ realm ++ "/.well-known/openid-configuration")) s =
        ((some resp, none), s1) →
      (resp.StatusCode < 200 ∨ resp.StatusCode > 299) →
      (certManager.Cert env (NewCertManager basePath client) kid realm s).out =
          .error (.fmtErrorf ("error get configuration. Response code: " ++
            toString resp.StatusCode ++ ". Url: " ++
            (TrimRight basePath "/" ++ "/" ++ realm ++ "/.well-known/openid-configuration"))) ∧
        (certManager.Cert env (NewCertManager basePath client) kid realm s).events =
          [.request (env.NewRequest "GET"
            (TrimRight basePath "/" ++ "/" ++ realm ++ "/.well-known/openid-configuration"))]) ∧
    (∀ (urlKeys : String) (s1 s2 : σ) (respKeys : Response),
      Discovered env (NewCertManager basePath client) realm s urlKeys s1 →
      client.Do (env.NewRequest "GET" urlKeys) s1 = ((some respKeys, none), s2) →
      (respKeys.StatusCode < 200 ∨ respKeys.StatusCode > 299) →
      (certManager.Cert env (NewCertManager basePath client) kid realm s).out =
        .error (.fmtErrorf ("error get keys. Response code: " ++
          toString respKeys.StatusCode ++ ". Url: " ++ urlKeys))) ∧
    (∀ (resp : Response) (s1 : σ),
      client.Do (env.NewRequest "GET"
          (TrimRight basePath "/" ++ "/" ++ realm ++ "/.well-known/openid-configuration")) s =
        ((some resp, none), s1) →
      200 ≤ resp.StatusCode → resp.StatusCode ≤ 299 →
      ∀ (code : Int) (url : String),
        (certManager.Cert env (NewCertManager basePath client) kid realm s).out ≠
          .error (.fmtErrorf ("error get configuration. Response code: " ++
            toString code ++ ". Url: " ++ url))) ∧
    (∀ (urlKeys : String) (s1 s2 : σ) (respKeys : Response),
      Discovered env (NewCertManager basePath client) realm s urlKeys s1 →
      client.Do (env.NewRequest "GET" urlKeys) s1 = ((some respKeys, none), s2) →
      200 ≤ respKeys.StatusCode → respKeys.StatusCode ≤ 299 →
      ∀ msg : String,
        (certManager.Cert env (NewCertManager basePath client) kid realm s).out ≠
          .error (.fmtErrorf msg)) := by
  refine ⟨?_, ?_, ?_, ?_⟩
  · intro resp s1 h hst
    have := Cert_discovery_status env (NewCertManager basePath client) kid realm s s1 resp h hst
    rw [this]
    exact ⟨rfl, rfl⟩
  · intro urlKeys s1 s2 respKeys hd h hst
    rw [Cert_of_discovered env _ kid realm s s1 urlKeys hd]
    have h2 : (NewCertManager basePath client).httpClient.Do (env.NewRequest "GET" urlKeys) s1 =
        ((some respKeys, none), s2) := h
    rw [h2]
    simp only []
    rw [if_pos hst]
    rfl
  · intro resp s1 h h200 h299 code url
    exact Cert_discovery_2xx_ne env (NewCertManager basePath client) kid realm s s1 resp h
      h200 h299 code url
  · intro urlKeys s1 s2 respKeys hd h h200 h299 msg
    rw [Cert_of_discovered env _ kid realm s s1 urlKeys hd]
    have h2 : (NewCertManager basePath client).httpClient.Do (env.NewRequest "GET" urlKeys) s1 =
        ((some respKeys, none), s2) := h
    rw [h2]
    simp only []
    rw [if_neg (by omega)]
    cases hk : env.decodeKResp respKeys.Body with
    | error err => simp
    | ok keys =>
      simp only []
      split <;> simp

/-- Witness of C6: the test `request configuration not found`, with a base path that ends in
a slash: the discovery GET returns 404, and `Cert` fails with the text of the test. -/
theorem Cert_status_errors_witness :
    (certManager.Cert samplePlatform (NewCertManager "test/" scriptedClient)
        "1h_MHweQR-g8osNYJvhd-FZ4s2lJ52PRm0G68jsuLPc" "test" sampleScriptDiscovery404).out =
      .error (.fmtErrorf ("error get configuration. Response code: " ++ toString (404 : Int) ++
        ". Url: " ++ (TrimRight "test/" "/" ++ "/" ++ "test" ++
          "/.well-known/openid-configuration"))) ∧
    "error get configuration. Response code: " ++ toString (404 : Int) ++
        ". Url: " ++ (TrimRight "test/" "/" ++ "/" ++ "test" ++
          "/.well-known/openid-configuration") =
      "error get configuration. Response code: 404. Url: test/test/.well-known/openid-configuration" :=
  ⟨((Cert_status_errors samplePlatform "test/" scriptedClient
      "1h_MHweQR-g8osNYJvhd-FZ4s2lJ52PRm0G68jsuLPc" "test" sampleScriptDiscovery404).1
      ⟨404, ""⟩ [] rfl (by decide)).1, by decide⟩

/-- C7 (transport error pass-through).  An error the HTTP client returns on the discovery
GET, or on the JWKS GET after a successful discovery, is what `certManager.Cert` returns:
the same error value, hence the same message, and no `Cert`. -/
theorem Cert_transport_error {σ : Type} (env : Platform) (cm : certManager σ) (kid realm : String)
    (s : σ) :
    (∀ (r : Option Response) (err : String) (s1 : σ),
      cm.httpClient.Do (env.NewRequest "GET" (configurationURL cm.basePath realm)) s =
        ((r, some err), s1) →
      (certManager.Cert env cm kid realm s).out = .error (.external err) ∧
        (GoError.external err).Error = err) ∧
    (∀ (urlKeys : String) (s1 s2 : σ) (r : Option Response) (err : String),
      Discovered env cm realm s urlKeys s1 →
      cm.httpClient.Do (env.NewRequest "GET" urlKeys) s1 = ((r, some err), s2) →
      (certManager.Cert env cm kid realm s).out = .error (.external err) ∧
        (GoError.external err).Error = err) := by
  constructor
  · intro r err s1 h
    rw [Cert_discovery_error env cm kid realm s s1 r err h]
    exact ⟨rfl, rfl⟩
  · intro urlKeys s1 s2 r err hd h
    rw [Cert_of_discovered env cm kid realm s s1 urlKeys hd, h]
    cases r <;> exact ⟨rfl, rfl⟩

/-- Witness of C7: the test `error request certs`: the client fails on the JWKS GET with
`error certs`, and that error is the result of `Cert`. -/
theorem Cert_transport_error_witness :
    (certManager.Cert samplePlatform sampleManager "1h_MHweQR-g8osNYJvhd-FZ4s2lJ52PRm0G68jsuLPc"
        "test" sampleScriptCertsError).out = .error (.external "error certs") :=
  ((Cert_transport_error samplePlatform sampleManager
      "1h_MHweQR-g8osNYJvhd-FZ4s2lJ52PRm0G68jsuLPc" "test" sampleScriptCertsError).2
    "http://base/test/protocol/openid-connect/certs" [(none, some "error certs")] [] none
    "error certs" ⟨⟨200, sampleConfiguration⟩, rfl, by decide, by decide, by decide⟩ rfl).1


/-! ## `jwtDecoder.DecodeAccessTokenClaims` -/

theorem GetSigningMethod_RSA (alg name : String) (h : GetSigningMethod alg = some (.RSA name)) :
    alg = "RS256" ∨ alg = "RS384" ∨ alg = "RS512" := by
  unfold GetSigningMethod at h
  split at h <;> simp at h <;> simp

theorem GetSigningMethod_other (alg : String)
    (h : alg ∈ ["PS256", "PS384", "PS512", "HS256", "HS384", "HS512", "ES256", "ES384", "ES512", "none"]) :
    ∃ meth, GetSigningMethod alg = some meth ∧ ∀ name, meth ≠ .RSA name := by
  simp only [List.mem_cons, List.mem_singleton, List.not_mem_nil, or_false] at h
  rcases h with h | h | h | h | h | h | h | h | h | h <;> subst h <;>
    exact ⟨_, rfl, fun name hn => by cases hn⟩

theorem ParseUnverified_none_err {κ : Type} (lib : JwtLib κ) (token : String) (claims : κ)
    (t : Option (Token κ)) (parts : List String)
    (h : ParseUnverified lib token claims = (t, parts, none)) :
    ∃ hb hdr cb cl alg meth,
      (Split token).length = 3 ∧ parts = Split token ∧
      lib.DecodeSegment ((Split token).getD 0 "") = .ok hb ∧ lib.UnmarshalHeader hb = .ok hdr ∧
      lib.DecodeSegment ((Split token).getD 1 "") = .ok cb ∧ lib.DecodeClaims cb claims = .ok cl ∧
      hdr.get "alg" = .string alg ∧ GetSigningMethod alg = some meth ∧
      t = some { Raw := token, Method := some meth, Header := hdr, Claims := some cl,
                 Signature := "", Valid := false } := by
  unfold ParseUnverified at h
  simp only [] at h
  split at h
  · simp at h
  · next hlen =>
    split at h
    · split at h <;> simp at h
    · next hb hhb =>
      split at h
      · simp at h
      · next hdr hhdr =>
        split at h
        · simp at h
        · next cb hcb =>
          split at h
          · simp at h
          · next cl hcl =>
            split at h
            · next alg halg =>
              split at h
              · simp at h
              · next meth hmeth =>
                simp only [Prod.mk.injEq, and_true] at h
                exact ⟨hb, hdr, cb, cl, alg, meth, by simpa using hlen, h.2.symm, hhb, hhdr, hcb, hcl,
                  halg, hmeth, h.1.symm⟩
            · simp at h

theorem ParseUnverified_of_parses {κ : Type} (lib : JwtLib κ) (token : String) (claims : κ)
    (hdr : Header) (alg : String) (hp : Parses lib token claims hdr)
    (halg : hdr.get "alg" = .string alg) :
    ∃ (cl : κ) (parts : List String),
      ParseUnverified lib token claims =
        (match GetSigningMethod alg with
          | some meth =>
            (some { Raw := token, Method := some meth, Header := hdr, Claims := some cl,
                    Signature := "", Valid := false }, parts, none)
          | none =>
            (some { Raw := token, Method := none, Header := hdr, Claims := some cl,
                    Signature := "", Valid := false }, parts,
              some (NewValidationError "signing method (alg) is unavailable."
                ValidationErrorUnverifiable))) := by
  obtain ⟨h, c, sg, hb, cb, cl, hs, h1, h2, h3, h4⟩ := hp
  refine ⟨cl, [h, c, sg], ?_⟩
  unfold ParseUnverified
  simp only [hs, List.length_cons, List.length_nil, List.getD_cons_zero, List.getD_cons_succ,
    h1, h2, h3, h4, halg]
  cases GetSigningMethod alg <;> simp

theorem keyFunc_of_kid {κ μ : Type} (realm : String) (token : Token κ) (s : KeyState μ)
    (kid : String) (hkid : token.Header.get "kid" = .string kid) :
    keyFunc realm token s =
      (match (s.decoder.publicKey kid realm s.manager).err with
        | some err => .returned none (some err)
        | none =>
          match token.Method with
          | some (.RSA _) => .returned (s.decoder.publicKey kid realm s.manager).key none
          | _ =>
            .returned none
              (some (.fmtErrorf
                ("unexpected signing method: " ++ (token.Header.get "alg").format))),
        ⟨(s.decoder.publicKey kid realm s.manager).decoder,
          (s.decoder.publicKey kid realm s.manager).manager,
          s.calls ++ (s.decoder.publicKey kid realm s.manager).calls⟩) := by
  unfold keyFunc
  rw [hkid]
  simp only []
  cases (s.decoder.publicKey kid realm s.manager).err with
  | some err => rfl
  | none =>
    simp only []
    split <;> rfl

theorem keyFunc_no_kid {κ μ : Type} (realm : String) (token : Token κ) (s : KeyState μ)
    (hkid : ∀ kid, token.Header.get "kid" ≠ .string kid) :
    keyFunc realm token s = (.panicked (assertStringPanic (token.Header.get "kid")), s) := by
  unfold keyFunc
  split
  · next kid h => exact absurd h (hkid kid)
  · rfl

theorem keyFunc_ok_RSA {κ μ : Type} (realm : String) (token : Token κ) (s s1 : KeyState μ)
    (key : Option RSAPublicKey) (h : keyFunc realm token s = (.returned key none, s1)) :
    ∃ name, token.Method = some (.RSA name) := by
  unfold keyFunc at h
  split at h
  · simp only [] at h
    split at h
    · simp at h
    · split at h
      · next name hm => exact ⟨name, hm⟩
      · simp at h
  · simp at h

theorem list_of_length_three (l : List String) (h : l.length = 3) :
    l = [l.getD 0 "", l.getD 1 "", l.getD 2 ""] := by
  match l, h with
  | [a, b, c], _ => rfl

theorem ParseWithClaims_success {κ S : Type} (lib : JwtLib κ) (token : String) (claims : κ)
    (kf : Token κ → S → KeyOutcome × S) (s : S) (tok : Option (Token κ))
    (h : (ParseWithClaims lib token claims kf s).result = .returned tok none) :
    ∃ (t : Token κ) (parts : List String) (key : Option RSAPublicKey) (s1 : S),
      ParseUnverified lib token claims = (some t, parts, none) ∧
        kf t s = (.returned key none, s1) := by
  unfold ParseWithClaims at h
  split at h
  · simp at h
  · simp at h
  · next t parts hpu =>
    split at h
    · simp at h
    · simp at h
    · next key s1 hkf => exact ⟨t, parts, key, s1, hpu, hkf⟩

/-- C2, as stated, fails in two ways.  With the manager of the test `error get cert` a
three-segment token whose header declares `alg: none` fails with the message `error cert`,
the key being resolved before the algorithm is looked at; and a token whose header declares
the unknown name `XS999` fails, with the manager of the test `success`, with the message
`signing method (alg) is unavailable.`  Neither message is `unexpected signing method: ...`. -/
theorem DecodeAccessTokenClaims_signing_method_counterexample :
    (jwtDecoder.DecodeAccessTokenClaims sampleJwtLib
        (NewJwtDecoder (mockManagerCertError ⟨3233, 65537⟩)) tokenNone "test" [] ()).result.errorText =
      "error cert" ∧
    (jwtDecoder.DecodeAccessTokenClaims sampleJwtLib
        (NewJwtDecoder (mockManager ⟨3233, 65537⟩)) tokenUnknown "test" [] ()).result.errorText =
      "signing method (alg) is unavailable." := by
  decide

/-- C2, amended (algorithm whitelist).  `DecodeAccessTokenClaims` succeeds only when the
header's `alg` is one of `RS256`, `RS384`, `RS512`.  For a three-segment token whose header
and claims decode and whose header has a string `kid`: if `alg` is one of `none`, `HS*`,
`ES*`, `PS*` and the key resolution `publicKey(kid, realm)` succeeds, the call fails with the
message `unexpected signing method: {alg}`, whatever the signature segment is and without any
signature verification; if the key resolution fails, its error is returned instead, for any
registered `alg`.  If `alg` is a string that names no registered method, the call fails in the
JWT library with `signing method (alg) is unavailable.` before any manager call. -/
theorem DecodeAccessTokenClaims_signing_method {κ μ : Type} (lib : JwtLib κ) (j : jwtDecoder μ)
    (token realm : String) (claims : κ) (m : μ) :
    (∀ tok : Option (Token κ),
      (j.DecodeAccessTokenClaims lib token realm claims m).result = .returned tok none →
      ∃ hdr : Header, Parses lib token claims hdr ∧
        (hdr.get "alg" = .string "RS256" ∨ hdr.get "alg" = .string "RS384" ∨
          hdr.get "alg" = .string "RS512")) ∧
    (∀ (hdr : Header) (kid alg : String), Parses lib token claims hdr →
      hdr.get "kid" = .string kid → hdr.get "alg" = .string alg →
      alg ∈ ["PS256", "PS384", "PS512", "HS256", "HS384", "HS512", "ES256", "ES384", "ES512",
        "none"] →
      (j.publicKey kid realm m).err = none →
      (∃ tok, (j.DecodeAccessTokenClaims lib token realm claims m).result =
          .returned tok (some ⟨some (.fmtErrorf ("unexpected signing method: " ++ alg)),
            ValidationErrorUnverifiable, ""⟩)) ∧
        (j.DecodeAccessTokenClaims lib token realm claims m).result.errorText =
          "unexpected signing method: " ++ alg ∧
        (j.DecodeAccessTokenClaims lib token realm claims m).verifications = []) ∧
    (∀ (hdr : Header) (kid alg : String) (meth : SigningMethod) (err : GoError),
      Parses lib token claims hdr →
      hdr.get "kid" = .string kid → hdr.get "alg" = .string alg →
      GetSigningMethod alg = some meth →
      (j.publicKey kid realm m).err = some err →
      (∃ tok, (j.DecodeAccessTokenClaims lib token realm claims m).result =
          .returned tok (some ⟨some err, ValidationErrorUnverifiable, ""⟩)) ∧
        (j.DecodeAccessTokenClaims lib token realm claims m).result.errorText = err.Error ∧
        (j.DecodeAccessTokenClaims lib token realm claims m).verifications = []) ∧
    (∀ (hdr : Header) (alg : String), Parses lib token claims hdr →
      hdr.get "alg" = .string alg → GetSigningMethod alg = none →
      (j.DecodeAccessTokenClaims lib token realm claims m).result.errorText =
          "signing method (alg) is unavailable." ∧
        (j.DecodeAccessTokenClaims lib token realm claims m).calls = [] ∧
        (j.DecodeAccessTokenClaims lib token realm claims m).verifications = []) := by
  refine ⟨?_, ?_, ?_, ?_⟩
  · intro tok h
    obtain ⟨t, parts, key, s1, hpu, hkf⟩ :=
      ParseWithClaims_success lib token claims (keyFunc realm) (⟨j, m, []⟩ : KeyState μ) tok h
    obtain ⟨hb, hdr, cb, cl, alg, meth, hlen, _, h1, h2, h3, h4, halg, hmeth, ht⟩ :=
      ParseUnverified_none_err lib token claims _ _ hpu
    obtain ⟨name, hname⟩ := keyFunc_ok_RSA realm t _ _ key hkf
    have ht2 : t = (⟨token, some meth, hdr, some cl, "", false⟩ : Token κ) := Option.some.inj ht
    rw [ht2] at hname
    simp only [Option.some.injEq] at hname
    rw [hname] at hmeth
    refine ⟨hdr, ⟨_, _, _, hb, cb, cl, list_of_length_three _ hlen, h1, h2, h3, h4⟩, ?_⟩
    rcases GetSigningMethod_RSA alg name hmeth with h | h | h <;> rw [halg, h] <;> simp
  · intro hdr kid alg hp hkid halg hmem herr
    obtain ⟨meth, hmeth, hnot⟩ := GetSigningMethod_other alg hmem
    obtain ⟨cl, parts, hpu⟩ := ParseUnverified_of_parses lib token claims hdr alg hp halg
    rw [hmeth] at hpu
    simp only [] at hpu
    have hkf := keyFunc_of_kid realm
      ({ Raw := token, Method := some meth, Header := hdr, Claims := some cl,
         Signature := "", Valid := false } : Token κ) (⟨j, m, []⟩ : KeyState μ) kid hkid
    simp only [herr, halg, Value.format] at hkf
    have hkf2 : keyFunc realm
        ({ Raw := token, Method := some meth, Header := hdr, Claims := some cl,
           Signature := "", Valid := false } : Token κ) (⟨j, m, []⟩ : KeyState μ) =
        (.returned none (some (.fmtErrorf ("unexpected signing method: " ++ alg))),
          ⟨(j.publicKey kid realm m).decoder, (j.publicKey kid realm m).manager,
            [] ++ (j.publicKey kid realm m).calls⟩) := by
      rw [hkf]
      cases meth with
      | RSA name => exact absurd rfl (hnot name)
      | _ => rfl
    unfold jwtDecoder.DecodeAccessTokenClaims ParseWithClaims
    simp only [hpu, hkf2]
    refine ⟨⟨_, rfl⟩, ?_, ?_⟩ <;> first | rfl | trivial
  · intro hdr kid alg meth err hp hkid halg hmeth herr
    obtain ⟨cl, parts, hpu⟩ := ParseUnverified_of_parses lib token claims hdr alg hp halg
    rw [hmeth] at hpu
    simp only [] at hpu
    have hkf := keyFunc_of_kid realm
      ({ Raw := token, Method := some meth, Header := hdr, Claims := some cl,
         Signature := "", Valid := false } : Token κ) (⟨j, m, []⟩ : KeyState μ) kid hkid
    simp only [herr] at hkf
    unfold jwtDecoder.DecodeAccessTokenClaims ParseWithClaims
    simp only [hpu, hkf]
    refine ⟨⟨_, rfl⟩, ?_, ?_⟩ <;> first | rfl | trivial
  · intro hdr alg hp halg hnone
    obtain ⟨cl, parts, hpu⟩ := ParseUnverified_of_parses lib token claims hdr alg hp halg
    rw [hnone] at hpu
    simp only [] at hpu
    unfold jwtDecoder.DecodeAccessTokenClaims ParseWithClaims
    simp only [hpu]
    refine ⟨?_, ?_, ?_⟩ <;> first | rfl | trivial

/-- Witness of C2 amended: the test `invalid signing method`, with the header `alg: none`
and the manager of the test, fails with `unexpected signing method: none`. -/
theorem DecodeAccessTokenClaims_signing_method_witness :
    (jwtDecoder.DecodeAccessTokenClaims sampleJwtLib (NewJwtDecoder (mockManager ⟨3233, 65537⟩))
        tokenNone "test" [] ()).result.errorText = "unexpected signing method: " ++ "none" :=
  ((DecodeAccessTokenClaims_signing_method sampleJwtLib (NewJwtDecoder (mockManager ⟨3233, 65537⟩))
      tokenNone "test" [] ()).2.1
    [("alg", .string "none"), ("kid", .string "kid"), ("typ", .string "JWT")] "kid" "none"
    ⟨"eyJhbGciOiJub25lIiwia2lkIjoia2lkIiwidHlwIjoiSldUIn0",
      "eyJkYXQiOiJDYW4gYmUgYW55dGhpbmcifQ", "", textBytes headerNoneText, textBytes claimsText,
      [("dat", .string "Can be anything")], by decide, by decide, by decide, by decide, by decide⟩
    (by decide) (by decide) (by decide) (by decide)).2.1

/-- C3 fails on the code.  For a three-segment token whose header and claims decode, whose
`alg` names a registered method and whose header has no `kid` or a `kid` that is not a string,
the unchecked type assertion `kid.(string)` in the key function panics: no error value is
returned to the caller.  The cert manager is not called. -/
theorem DecodeAccessTokenClaims_kid_panic {κ μ : Type} (lib : JwtLib κ) (j : jwtDecoder μ)
    (token realm : String) (claims : κ) (m : μ) (hdr : Header) (alg : String)
    (meth : SigningMethod) (hp : Parses lib token claims hdr)
    (halg : hdr.get "alg" = .string alg) (hmeth : GetSigningMethod alg = some meth)
    (hkid : ∀ kid, hdr.get "kid" ≠ .string kid) :
    (j.DecodeAccessTokenClaims lib token realm claims m).result =
        .panicked (assertStringPanic (hdr.get "kid")) ∧
      (j.DecodeAccessTokenClaims lib token realm claims m).calls = [] := by
  obtain ⟨cl, parts, hpu⟩ := ParseUnverified_of_parses lib token claims hdr alg hp halg
  rw [hmeth] at hpu
  simp only [] at hpu
  have hkf := keyFunc_no_kid realm
    (⟨token, some meth, hdr, some cl, "", false⟩ : Token κ) (⟨j, m, []⟩ : KeyState μ) hkid
  unfold jwtDecoder.DecodeAccessTokenClaims ParseWithClaims
  simp only [hpu, hkf]
  refine ⟨?_, ?_⟩ <;> first | rfl | trivial

/-- Witness of the failure of C3: the token `tokenNoKid`, whose header is
`alg: RS256, typ: JWT`, makes `DecodeAccessTokenClaims` panic. -/
theorem DecodeAccessTokenClaims_kid_panic_witness :
    (jwtDecoder.DecodeAccessTokenClaims sampleJwtLib (NewJwtDecoder (mockManager ⟨3233, 65537⟩))
        tokenNoKid "test" [] ()).result =
      .panicked "interface conversion: interface \x7b\x7d is nil, not string" :=
  (DecodeAccessTokenClaims_kid_panic sampleJwtLib (NewJwtDecoder (mockManager ⟨3233, 65537⟩))
    tokenNoKid "test" [] () [("alg", .string "RS256"), ("typ", .string "JWT")] "RS256"
    (.RSA "RS256")
    ⟨"eyJhbGciOiJSUzI1NiIsInR5cCI6IkpXVCJ9", "eyJkYXQiOiJDYW4gYmUgYW55dGhpbmcifQ", "c2ln",
      textBytes headerNoKidText, textBytes claimsText, [("dat", .string "Can be anything")],
      by decide, by decide, by decide, by decide, by decide⟩
    (by decide) (by decide)
    (fun kid h =>
      Value.noConfusion
        ((show Header.get [("alg", .string "RS256"), ("typ", .string "JWT")] "kid" = Value.nil
          from by decide).symm.trans h))).1

/-! ## `jwtDecoder.publicKey` -/

theorem publicKey_hit {μ : Type} (j : jwtDecoder μ) (kid realm : String) (m : μ) (c : Cert)
    (h : j.certsCache.get kid = some c) :
    j.publicKey kid realm m =
      ⟨(j.certManager.PublicKey (some c) m).1.1, (j.certManager.PublicKey (some c) m).1.2, j,
        (j.certManager.PublicKey (some c) m).2, [.PublicKey (some c)]⟩ := by
  unfold jwtDecoder.publicKey
  rw [h]

theorem publicKey_miss_error {μ : Type} (j : jwtDecoder μ) (kid realm : String) (m m1 : μ)
    (r : Option Cert) (err : GoError) (h : j.certsCache.get kid = none)
    (hc : j.certManager.Cert kid realm m = ((r, some err), m1)) :
    j.publicKey kid realm m = ⟨none, some err, j, m1, [.Cert kid realm]⟩ := by
  unfold jwtDecoder.publicKey
  rw [h]
  simp only [hc]

theorem publicKey_miss_fetched {μ : Type} (j : jwtDecoder μ) (kid realm : String) (m m1 : μ)
    (c : Option Cert) (h : j.certsCache.get kid = none)
    (hc : j.certManager.Cert kid realm m = ((c, none), m1)) :
    j.publicKey kid realm m =
      ⟨(j.certManager.PublicKey c m1).1.1, (j.certManager.PublicKey c m1).1.2,
        { j with certsCache := j.certsCache.set kid c }, (j.certManager.PublicKey c m1).2,
        [.Cert kid realm, .PublicKey c]⟩ := by
  unfold jwtDecoder.publicKey
  rw [h]
  simp only [hc]

theorem CertsCache_get_set (cache : CertsCache) (kid : String) (c : Option Cert) :
    (cache.set kid c).get kid = c := by
  simp [CertsCache.get, CertsCache.set]

theorem CertsCache_get_set_ne (cache : CertsCache) (kid kid2 : String) (c : Option Cert)
    (h : kid ≠ kid2) : (cache.set kid2 c).get kid = cache.get kid := by
  simp [CertsCache.get, CertsCache.set, h]

theorem publicKey_keeps_entry {μ : Type} (j : jwtDecoder μ) (kid kid2 realm2 : String) (m : μ)
    (c : Cert) (h : j.certsCache.get kid = some c) :
    (j.publicKey kid2 realm2 m).decoder.certsCache.get kid = some c ∧
      (j.publicKey kid2 realm2 m).decoder.certManager = j.certManager := by
  cases hget : j.certsCache.get kid2 with
  | some c2 =>
    rw [publicKey_hit j kid2 realm2 m c2 hget]
    exact ⟨h, rfl⟩
  | none =>
    have hne : kid ≠ kid2 := by
      intro heq
      rw [heq, hget] at h
      cases h
    rcases hc : j.certManager.Cert kid2 realm2 m with ⟨⟨r, e⟩, m1⟩
    cases e with
    | some err =>
      rw [publicKey_miss_error j kid2 realm2 m m1 r err hget hc]
      exact ⟨h, rfl⟩
    | none =>
      rw [publicKey_miss_fetched j kid2 realm2 m m1 r hget hc]
      exact ⟨by rw [CertsCache_get_set_ne _ _ _ _ hne]; exact h, rfl⟩

theorem resolveAll_keeps_entry {μ : Type} (ops : List (String × String)) (j : jwtDecoder μ)
    (kid : String) (m : μ) (c : Cert) (h : j.certsCache.get kid = some c) :
    (resolveAll ops j m).1.certsCache.get kid = some c ∧
      (resolveAll ops j m).1.certManager = j.certManager := by
  induction ops generalizing j m with
  | nil => exact ⟨h, rfl⟩
  | cons op ops ih =>
    obtain ⟨kid2, realm2⟩ := op
    rw [resolveAll]
    have hk := publicKey_keeps_entry j kid kid2 realm2 m c h
    have := ih (j.publicKey kid2 realm2 m).decoder (j.publicKey kid2 realm2 m).manager hk.1
    exact ⟨this.1, this.2.trans hk.2⟩

/-- C8 (cache purity).  Let a resolution `publicKey(kid, realm)` miss the cache and its
`certManager.Cert` call return the Cert `c` without error.  Then after any further
resolutions `ops` on the same decoder, a resolution `publicKey(kid, realm)` calls the manager
exactly once, `PublicKey` on `c`: it makes no call of `certManager.Cert`, the only method
that issues HTTP requests, and its result is what `certManager.PublicKey` derives from the
cached `c`; the cache is left as it was. -/
theorem publicKey_cache_purity {μ : Type} (j : jwtDecoder μ) (kid realm : String) (m m1 : μ)
    (c : Cert) (ops : List (String × String))
    (hmiss : j.certsCache.get kid = none)
    (hcert : j.certManager.Cert kid realm m = ((some c, none), m1)) :
    (((resolveAll ops (j.publicKey kid realm m).decoder (j.publicKey kid realm m).manager).1.publicKey
        kid realm
        (resolveAll ops (j.publicKey kid realm m).decoder (j.publicKey kid realm m).manager).2).calls =
      [.PublicKey (some c)]) ∧
    (((resolveAll ops (j.publicKey kid realm m).decoder (j.publicKey kid realm m).manager).1.publicKey
        kid realm
        (resolveAll ops (j.publicKey kid realm m).decoder (j.publicKey kid realm m).manager).2).key =
      (j.certManager.PublicKey (some c)
        (resolveAll ops (j.publicKey kid realm m).decoder (j.publicKey kid realm m).manager).2).1.1) ∧
    (((resolveAll ops (j.publicKey kid realm m).decoder (j.publicKey kid realm m).manager).1.publicKey
        kid realm
        (resolveAll ops (j.publicKey kid realm m).decoder (j.publicKey kid realm m).manager).2).err =
      (j.certManager.PublicKey (some c)
        (resolveAll ops (j.publicKey kid realm m).decoder (j.publicKey kid realm m).manager).2).1.2) ∧
    (((resolveAll ops (j.publicKey kid realm m).decoder (j.publicKey kid realm m).manager).1.publicKey
        kid realm
        (resolveAll ops (j.publicKey kid realm m).decoder
          (j.publicKey kid realm m).manager).2).decoder.certsCache =
      (resolveAll ops (j.publicKey kid realm m).decoder
        (j.publicKey kid realm m).manager).1.certsCache) := by
  have h1 : (j.publicKey kid realm m).decoder.certsCache.get kid = some c := by
    rw [publicKey_miss_fetched j kid realm m m1 (some c) hmiss hcert]
    exact CertsCache_get_set _ _ _
  have h2 : (j.publicKey kid realm m).decoder.certManager = j.certManager := by
    rw [publicKey_miss_fetched j kid realm m m1 (some c) hmiss hcert]
  obtain ⟨h3, h4⟩ := resolveAll_keeps_entry ops (j.publicKey kid realm m).decoder kid
    (j.publicKey kid realm m).manager c h1
  rw [publicKey_hit _ kid realm _ c h3, h4, h2]
  exact ⟨rfl, rfl, rfl, rfl⟩

/-- Witness of C8: with the manager of the test `success`, after a first resolution of
`kid` and a resolution of another kid, resolving `kid` again calls only `PublicKey`. -/
theorem publicKey_cache_purity_witness :
    ((resolveAll [("other", "test")]
        ((NewJwtDecoder (mockManager ⟨3233, 65537⟩)).publicKey "kid" "test" ()).decoder
        ((NewJwtDecoder (mockManager ⟨3233, 65537⟩)).publicKey "kid" "test" ()).manager).1.publicKey
      "kid" "test"
      (resolveAll [("other", "test")]
        ((NewJwtDecoder (mockManager ⟨3233, 65537⟩)).publicKey "kid" "test" ()).decoder
        ((NewJwtDecoder (mockManager ⟨3233, 65537⟩)).publicKey "kid" "test" ()).manager).2).calls =
      [.PublicKey (some (mockCert "kid"))] :=
  (publicKey_cache_purity (NewJwtDecoder (mockManager ⟨3233, 65537⟩)) "kid" "test" () ()
    (mockCert "kid") [("other", "test")] rfl rfl).1

/-- C9, as stated, fails: with the manager of the test `error get public key` the call
`publicKey("kid", "test")` on a new decoder returns the error `error public key`, and the
cache, empty before the call, holds the fetched Cert under `kid` after it. -/
theorem publicKey_error_cache_counterexample :
    ((NewJwtDecoder mockManagerKeyError).publicKey "kid" "test" ()).err =
      some (.external "error public key") ∧
    (NewJwtDecoder mockManagerKeyError).certsCache "kid" = none ∧
    ((NewJwtDecoder mockManagerKeyError).publicKey "kid" "test" ()).decoder.certsCache "kid" =
      some (some (mockCert "kid")) ∧
    ((NewJwtDecoder mockManagerKeyError).publicKey "kid" "test" ()).decoder.certsCache ≠
      (NewJwtDecoder mockManagerKeyError).certsCache := by
  refine ⟨by decide, by decide, by decide, ?_⟩
  intro h
  have h2 := congrFun h "kid"
  revert h2
  decide

/-- C9, amended (cache and errors).  A call `publicKey(kid, realm)` that returns the error
of `certManager.Cert` leaves the `certsCache` equal to the cache before the call, and so does
every call that finds `kid` in the cache.  A call that misses the cache, gets a Cert from
`certManager.Cert` without error and then returns the error of `certManager.PublicKey` leaves
the cache of before the call with that Cert stored under `kid`. -/
theorem publicKey_error_cache {μ : Type} (j : jwtDecoder μ) (kid realm : String) (m : μ) :
    (∀ (r : Option Cert) (err : GoError) (m1 : μ), j.certsCache.get kid = none →
      j.certManager.Cert kid realm m = ((r, some err), m1) →
      (j.publicKey kid realm m).err = some err ∧
        (j.publicKey kid realm m).decoder.certsCache = j.certsCache) ∧
    (∀ c : Cert, j.certsCache.get kid = some c →
      (j.publicKey kid realm m).decoder.certsCache = j.certsCache) ∧
    (∀ (c : Option Cert) (m1 m2 : μ) (key : Option RSAPublicKey) (err : GoError),
      j.certsCache.get kid = none →
      j.certManager.Cert kid realm m = ((c, none), m1) →
      j.certManager.PublicKey c m1 = ((key, some err), m2) →
      (j.publicKey kid realm m).err = some err ∧
        (j.publicKey kid realm m).decoder.certsCache = j.certsCache.set kid c) := by
  refine ⟨?_, ?_, ?_⟩
  · intro r err m1 hmiss hc
    rw [publicKey_miss_error j kid realm m m1 r err hmiss hc]
    exact ⟨rfl, rfl⟩
  · intro c hhit
    rw [publicKey_hit j kid realm m c hhit]
  · intro c m1 m2 key err hmiss hc hk
    rw [publicKey_miss_fetched j kid realm m m1 c hmiss hc, hk]
    exact ⟨rfl, rfl⟩

/-- Witness of C9 amended: with the manager of the test `error get cert` the call returns
the error `error cert` and the cache is the one of before the call. -/
theorem publicKey_error_cache_witness :
    ((NewJwtDecoder (mockManagerCertError ⟨3233, 65537⟩)).publicKey "kid" "test" ()).err =
        some (.external "error cert") ∧
      ((NewJwtDecoder (mockManagerCertError ⟨3233, 65537⟩)).publicKey "kid" "test" ()).decoder.certsCache =
        (NewJwtDecoder (mockManagerCertError ⟨3233, 65537⟩)).certsCache :=
  (publicKey_error_cache (NewJwtDecoder (mockManagerCertError ⟨3233, 65537⟩)) "kid" "test" ()).1
    none (.external "error cert") () rfl rfl

/-! ## Response bodies -/

theorem Cert_events_discovery_2xx {σ : Type} (env : Platform) (cm : certManager σ)
    (kid realm : String) (s s1 : σ) (resp : Response)
    (h : cm.httpClient.Do (env.NewRequest "GET" (configurationURL cm.basePath realm)) s =
      ((some resp, none), s1))
    (h200 : 200 ≤ resp.StatusCode) (h299 : resp.StatusCode ≤ 299) :
    HttpEvent.closeBody resp ∈ (certManager.Cert env cm kid realm s).events := by
  unfold certManager.Cert
  simp only [h]
  rw [if_neg (by omega)]
  cases hc : env.decodeConfigRealm resp.Body with
  | error err => simp
  | ok urlKeys =>
    simp only []
    rcases hdo : cm.httpClient.Do (env.NewRequest "GET" urlKeys) s1 with ⟨⟨r, e⟩, s2⟩
    rcases r with _ | respKeys <;> rcases e with _ | err <;> try simp
    by_cases hst : respKeys.StatusCode < 200 ∨ respKeys.StatusCode > 299
    · rw [if_pos hst]; simp
    · rw [if_neg hst]
      cases hk : env.decodeKResp respKeys.Body with
      | error err => simp
      | ok keys =>
        simp only []
        split <;> simp

theorem Cert_events_of_discovered {σ : Type} (env : Platform) (cm : certManager σ)
    (kid realm : String) (s s1 s2 : σ) (urlKeys : String) (resp respKeys : Response)
    (h : cm.httpClient.Do (env.NewRequest "GET" (configurationURL cm.basePath realm)) s =
      ((some resp, none), s1))
    (h200 : 200 ≤ resp.StatusCode) (h299 : resp.StatusCode ≤ 299)
    (hc : env.decodeConfigRealm resp.Body = .ok urlKeys)
    (h2 : cm.httpClient.Do (env.NewRequest "GET" urlKeys) s1 = ((some respKeys, none), s2)) :
    (certManager.Cert env cm kid realm s).events =
      if respKeys.StatusCode < 200 ∨ respKeys.StatusCode > 299 then
        [.request (env.NewRequest "GET" (configurationURL cm.basePath realm)),
          .request (env.NewRequest "GET" urlKeys), .closeBody resp]
      else
        [.request (env.NewRequest "GET" (configurationURL cm.basePath realm)),
          .request (env.NewRequest "GET" urlKeys), .closeBody respKeys, .closeBody resp] := by
  unfold certManager.Cert
  simp only [h, hc, h2]
  rw [if_neg (by omega)]
  by_cases hst : respKeys.StatusCode < 200 ∨ respKeys.StatusCode > 299
  · rw [if_pos hst, if_pos hst]
  · rw [if_neg hst, if_neg hst]
    cases hk : env.decodeKResp respKeys.Body with
    | error err => rfl
    | ok keys =>
      simp only []
      split <;> rfl

/-- C11 fails on the code.  When the discovery GET returns a response whose status is outside
`[200, 299]`, `certManager.Cert` returns with the discovery request as its only event: the
body of that response is never closed.  When, after a successful discovery, the JWKS GET
returns a response whose status is outside `[200, 299]`, `Cert` returns having closed the
discovery body only: the body of the JWKS response is never closed.  On the returns taken
after a status check has passed the body of that response is closed: the discovery body
whenever the discovery status is in `[200, 299]`, and the JWKS body too whenever both
statuses are. -/
theorem Cert_status_return_body_open {σ : Type} (env : Platform) (cm : certManager σ)
    (kid realm : String) (s : σ) :
    (∀ (resp : Response) (s1 : σ),
      cm.httpClient.Do (env.NewRequest "GET" (configurationURL cm.basePath realm)) s =
        ((some resp, none), s1) →
      (resp.StatusCode < 200 ∨ resp.StatusCode > 299) →
      (certManager.Cert env cm kid realm s).events =
          [.request (env.NewRequest "GET" (configurationURL cm.basePath realm))] ∧
        HttpEvent.closeBody resp ∉ (certManager.Cert env cm kid realm s).events) ∧
    (∀ (urlKeys : String) (s1 s2 : σ) (respKeys : Response),
      Discovered env cm realm s urlKeys s1 →
      cm.httpClient.Do (env.NewRequest "GET" urlKeys) s1 = ((some respKeys, none), s2) →
      (respKeys.StatusCode < 200 ∨ respKeys.StatusCode > 299) →
      HttpEvent.closeBody respKeys ∉ (certManager.Cert env cm kid realm s).events) ∧
    (∀ (resp : Response) (s1 : σ),
      cm.httpClient.Do (env.NewRequest "GET" (configurationURL cm.basePath realm)) s =
        ((some resp, none), s1) →
      200 ≤ resp.StatusCode → resp.StatusCode ≤ 299 →
      HttpEvent.closeBody resp ∈ (certManager.Cert env cm kid realm s).events) ∧
    (∀ (urlKeys : String) (s1 s2 : σ) (respKeys : Response),
      Discovered env cm realm s urlKeys s1 →
      cm.httpClient.Do (env.NewRequest "GET" urlKeys) s1 = ((some respKeys, none), s2) →
      200 ≤ respKeys.StatusCode → respKeys.StatusCode ≤ 299 →
      HttpEvent.closeBody respKeys ∈ (certManager.Cert env cm kid realm s).events) := by
  refine ⟨?_, ?_, ?_, ?_⟩
  · intro resp s1 h hst
    rw [Cert_discovery_status env cm kid realm s s1 resp h hst]
    exact ⟨rfl, by simp⟩
  · intro urlKeys s1 s2 respKeys hd h2 hst
    obtain ⟨resp, h, h200, h299, hc⟩ := hd
    rw [Cert_events_of_discovered env cm kid realm s s1 s2 urlKeys resp respKeys h h200 h299 hc h2,
      if_pos hst]
    have hne : respKeys ≠ resp := by
      intro heq
      rw [heq] at hst
      omega
    simp [hne]
  · intro resp s1 h h200 h299
    exact Cert_events_discovery_2xx env cm kid realm s s1 resp h h200 h299
  · intro urlKeys s1 s2 respKeys hd h2 h200k h299k
    obtain ⟨resp, h, h200, h299, hc⟩ := hd
    rw [Cert_events_of_discovered env cm kid realm s s1 s2 urlKeys resp respKeys h h200 h299 hc h2,
      if_neg (by omega)]
    simp

/-- Witness of the failure of C11: in the test `request certs not found` the JWKS GET
returns 404 with a body, and `Cert` returns without closing that body. -/
theorem Cert_status_return_body_open_witness :
    HttpEvent.closeBody ⟨404, "not found"⟩ ∉
      (certManager.Cert samplePlatform sampleManager "1h_MHweQR-g8osNYJvhd-FZ4s2lJ52PRm0G68jsuLPc"
        "test" sampleScriptCerts404).events :=
  (Cert_status_return_body_open samplePlatform sampleManager
      "1h_MHweQR-g8osNYJvhd-FZ4s2lJ52PRm0G68jsuLPc" "test" sampleScriptCerts404).2.1
    "http://base/test/protocol/openid-connect/certs" [(some ⟨404, "not found"⟩, none)] []
    ⟨404, "not found"⟩ ⟨⟨200, sampleConfiguration⟩, rfl, by decide, by decide, by decide⟩ rfl
    (by decide)

/-! ## The cache key -/

/-- C12 (the cache is keyed by kid alone).  Let a resolution `publicKey(kid, r1)` miss the
cache and its `certManager.Cert(kid, r1)` call return the Cert `c` without error.  Then, after
any further resolutions `ops` on the same decoder and with the manager in any state, a
resolution `publicKey(kid, r2)` for any realm `r2` calls the manager exactly once, `PublicKey`
on `c`: it does not call `certManager.Cert(kid, r2)`, its result pair is what
`certManager.PublicKey` derives from the Cert fetched for `r1`, and the whole run is the same
for every other realm `r3`. -/
theorem publicKey_ignores_realm {μ : Type} (j : jwtDecoder μ) (kid r1 r2 r3 : String)
    (m m1 m2 : μ) (c : Cert) (ops : List (String × String))
    (hmiss : j.certsCache.get kid = none)
    (hcert : j.certManager.Cert kid r1 m = ((some c, none), m1)) :
    ((resolveAll ops (j.publicKey kid r1 m).decoder (j.publicKey kid r1 m).manager).1.publicKey
        kid r2 m2).calls = [.PublicKey (some c)] ∧
    ManagerCall.Cert kid r2 ∉
      ((resolveAll ops (j.publicKey kid r1 m).decoder (j.publicKey kid r1 m).manager).1.publicKey
        kid r2 m2).calls ∧
    ((resolveAll ops (j.publicKey kid r1 m).decoder (j.publicKey kid r1 m).manager).1.publicKey
        kid r2 m2).key = (j.certManager.PublicKey (some c) m2).1.1 ∧
    ((resolveAll ops (j.publicKey kid r1 m).decoder (j.publicKey kid r1 m).manager).1.publicKey
        kid r2 m2).err = (j.certManager.PublicKey (some c) m2).1.2 ∧
    (resolveAll ops (j.publicKey kid r1 m).decoder (j.publicKey kid r1 m).manager).1.publicKey
        kid r2 m2 =
      (resolveAll ops (j.publicKey kid r1 m).decoder (j.publicKey kid r1 m).manager).1.publicKey
        kid r3 m2 := by
  have h1 : (j.publicKey kid r1 m).decoder.certsCache.get kid = some c := by
    rw [publicKey_miss_fetched j kid r1 m m1 (some c) hmiss hcert]
    exact CertsCache_get_set _ _ _
  have h2 : (j.publicKey kid r1 m).decoder.certManager = j.certManager := by
    rw [publicKey_miss_fetched j kid r1 m m1 (some c) hmiss hcert]
  obtain ⟨h3, h4⟩ := resolveAll_keeps_entry ops (j.publicKey kid r1 m).decoder kid
    (j.publicKey kid r1 m).manager c h1
  rw [publicKey_hit _ kid r2 m2 c h3, publicKey_hit _ kid r3 m2 c h3, h4, h2]
  refine ⟨rfl, by simp, rfl, rfl, rfl⟩

/-- Witness of C12: with a manager whose Certs differ from realm to realm, after `kid` was
resolved for the realm `test`, resolving it for the realm `other` calls only `PublicKey`, on
the Cert fetched for `test`. -/
theorem publicKey_ignores_realm_witness :
    ((resolveAll []
        ((NewJwtDecoder realmManager).publicKey "kid" "test" ()).decoder
        ((NewJwtDecoder realmManager).publicKey "kid" "test" ()).manager).1.publicKey
      "kid" "other" ()).calls = [.PublicKey (some { emptyCert with Kid := "kid", Use := "test" })] :=
  (publicKey_ignores_realm (NewJwtDecoder realmManager) "kid" "test" "other" "third" () () ()
    { emptyCert with Kid := "kid", Use := "test" } [] rfl rfl).1
end OpenIDDecode
